import Mathlib

/-!
Verification model of the vendo-app storefront (a Next.js PWA over a
vending-machine REST backend).  Prices and other JavaScript numbers are
modelled as exact rationals (`ℚ`); JavaScript truthiness on strings and
numbers is modelled explicitly (`""` and `0` are falsy); fallible `await`
calls are modelled by explicit call-result environments, and each page
handler is a pure function from its component state and such an
environment to a trace of the API calls it issues plus its final UI
state.
-/

/-- JavaScript `a || b` for an optional string value `a`
(`undefined`/`null` and `""` are falsy). -/
def orStr (a : Option String) (fb : String) : String :=
  match a with
  | some s => if s = "" then fb else s
  | none => fb

/-- JavaScript `a || b` for an optional numeric value `a`
(`undefined`/`null` and `0` are falsy). -/
def orNum (a : Option ℚ) (fb : ℚ) : ℚ :=
  match a with
  | some x => if x = 0 then fb else x
  | none => fb

/-- JavaScript `a || b` for two optional numeric values (the result can
itself be absent, as in `productData.deposit_amount || productData.depositAmount`). -/
def orNumOpt (a b : Option ℚ) : Option ℚ :=
  match a with
  | some x => if x = 0 then b else some x
  | none => b

/-- JavaScript `a || b` for an optional boolean value. -/
def orBool (a : Option Bool) (fb : Bool) : Bool :=
  match a with
  | some x => if x = false then fb else x
  | none => fb

/-- Truthiness of an optional string (`undefined` and `""` are falsy). -/
def strTruthy (a : Option String) : Bool :=
  match a with
  | some s => s ≠ ""
  | none => false

/-- Digit-prefix value of a character list (used by the `parseInt` model). -/
def leadDigitsVal (cs : List Char) : Option ℤ :=
  let ds := cs.takeWhile Char.isDigit
  if ds = [] then none
  else some (ds.foldl (fun a c => a * 10 + ((c.toNat - '0'.toNat : ℕ) : ℤ)) 0)

/-- Model of JavaScript `parseInt(s, 10)`: optional sign followed by a digit
prefix; `none` models the `NaN` result. -/
def parseIntJS (s : String) : Option ℤ :=
  match s.data.dropWhile (fun c => c = ' ') with
  | '-' :: rest => (leadDigitsVal rest).map (fun n => -n)
  | '+' :: rest => leadDigitsVal rest
  | cs => leadDigitsVal cs

/-! ## Data model (`src/lib/types.ts`, `src/lib/api/vmService.ts`) -/

/-- The JSON object carried by a spring record under `linked_product`
(fields accessed by `springToProduct`; absent fields are `none`). -/
structure ProductData where
  title : Option String
  name : Option String
  price : Option ℚ
  image : Option String
  image_url : Option String
  category : Option String
  is_age_restricted : Option Bool
  isAgeRestrictedAlt : Option Bool
  tax_rate : Option ℚ
  taxRateAlt : Option ℚ
  deposit_amount : Option ℚ
  depositAmountAlt : Option ℚ
  deriving DecidableEq

/-- A spring's `linked_product` value: either a JSON string (whose parse can
fail, the `none` case) or an already-parsed object. -/
inductive LinkedProduct where
  | jstr (parsed : Option ProductData)
  | jobj (d : ProductData)
  deriving DecidableEq

/-- Backend spring record (`Spring` in `vmService.ts`); `linked_product` is
`none` for `null`/absent. -/
structure Spring where
  id : String
  vm_id : String
  store_id : String
  selection_number : String
  capacity : ℕ
  inventory : ℤ
  linked_product : Option LinkedProduct
  spring_status : Option String
  stripe_code : String
  deriving DecidableEq

/-- UI product shape (`Product` in `lib/types.ts`).  `selectionNumber` is the
`parseInt` result (`none` models `NaN`); the optional spring-derived fields
are `none` when absent. -/
structure Product where
  id : String
  name : String
  price : ℚ
  image : String
  category : String
  isAgeRestricted : Bool
  taxRate : ℚ
  depositAmount : Option ℚ
  selectionNumber : Option ℤ
  inventory : Option ℤ
  capacity : Option ℕ
  springStatus : Option String
  stripeCode : Option String
  vmId : Option String
  storeId : Option String
  deriving DecidableEq

/-! ## Product mapper (`src/lib/api/productMapper.ts`) -/

/-- The parsed `linked_product` data of a spring: `none` when the field is
missing or is a string that fails `JSON.parse`. -/
def linkedData (s : Spring) : Option ProductData :=
  match s.linked_product with
  | none => none
  | some (.jstr p) => p
  | some (.jobj d) => some d

/-- `springToProduct`: convert a spring to a UI product, `none` when
`linked_product` is missing or unparseable. -/
def springToProduct (s : Spring) : Option Product :=
  match s.linked_product with
  | none => none
  | some lp =>
    match (match lp with | .jstr p => p | .jobj d => some d) with
    | none => none
    | some pd =>
      some
        { id := s.id
          name := orStr pd.title (orStr pd.name ("Product " ++ s.selection_number))
          price := orNum pd.price 0
          image := orStr pd.image (orStr pd.image_url "/placeholder.svg")
          category := orStr pd.category "General"
          isAgeRestricted := orBool pd.is_age_restricted (orBool pd.isAgeRestrictedAlt false)
          taxRate := orNum pd.tax_rate (orNum pd.taxRateAlt 0)
          depositAmount := orNumOpt pd.deposit_amount pd.depositAmountAlt
          selectionNumber := parseIntJS s.selection_number
          inventory := some s.inventory
          capacity := some s.capacity
          springStatus := s.spring_status
          stripeCode := some s.stripe_code
          vmId := some s.vm_id
          storeId := some s.store_id }

/-- The availability predicate of `filterAvailableSprings`: a
`linked_product` is present, inventory is positive, and the status is
neither `broken` nor `maintenance`. -/
def availableSpring (s : Spring) : Bool :=
  s.linked_product.isSome && decide (0 < s.inventory) &&
    !(s.spring_status == some "broken") && !(s.spring_status == some "maintenance")

/-- `filterAvailableSprings`: keep springs with a `linked_product`, positive
inventory, and a status that is neither `broken` nor `maintenance`. -/
def filterAvailableSprings (springs : List Spring) : List Spring :=
  springs.filter availableSpring

/-- `mapSpringsToProducts`: map springs to products, dropping the `null`s. -/
def mapSpringsToProducts (springs : List Spring) : List Product :=
  springs.filterMap springToProduct

/-- The product list computed by `fetchProducts` on the products page:
filter the fetched springs, then map them. -/
def productsShown (springs : List Spring) : List Product :=
  mapSpringsToProducts (filterAvailableSprings springs)

/-- The springs that contribute a product: available (per the filter) and
with parseable linked-product data. -/
def shownSpring (s : Spring) : Bool :=
  (linkedData s).isSome && decide (0 < s.inventory) &&
    !(s.spring_status == some "broken") && !(s.spring_status == some "maintenance")

/-! ## Cart store and its UI operations
(`src/components/ErrorBoundary.tsx` bundle: `ProductCard`;
`src/components/cart/CartItem.tsx`; the store itself is `lib/stores/cartStore`). -/

/-- Cart line (`CartItem` in `lib/types.ts`). -/
structure CartItem where
  product : Product
  quantity : ℕ
  deriving DecidableEq

/-- Cart store state. -/
structure CartState where
  items : List CartItem
  deriving DecidableEq

/-- Initial cart state: empty. -/
def cartInitial : CartState := ⟨[]⟩

/-- Modelled from the spec: the cart store module (`lib/stores/cartStore`)
is not among the provided sources; only its callers are.  `addItem` appends
a new line with quantity 1 (spec: items are added with quantity at least 1,
and the invariant `quantity > 0` holds). -/
def addItem (s : CartState) (p : Product) : CartState :=
  if s.items.any (fun it => it.product.id = p.id) then
    ⟨s.items.map (fun it => if it.product.id = p.id then ⟨it.product, it.quantity + 1⟩ else it)⟩
  else
    ⟨s.items ++ [⟨p, 1⟩]⟩

/-- Modelled from the spec: `updateQuantity` sets a line's quantity, removing
the line when the requested quantity is not positive (the spec's `quantity > 0`
invariant, "enforced loosely by UI logic", requires the store to drop a line
when the product-card decrement requests quantity 0). -/
def updateQuantity (s : CartState) (pid : String) (q : ℤ) : CartState :=
  if q ≤ 0 then
    ⟨s.items.filter (fun it => it.product.id ≠ pid)⟩
  else
    ⟨s.items.map (fun it => if it.product.id = pid then ⟨it.product, q.toNat⟩ else it)⟩

/-- Modelled from the spec: `removeItem` drops the line of a product. -/
def removeItem (s : CartState) (pid : String) : CartState :=
  ⟨s.items.filter (fun it => it.product.id ≠ pid)⟩

/-- Modelled from the spec: `clearCart` empties the cart. -/
def clearCart (_s : CartState) : CartState := ⟨[]⟩

/-- Quantity of a product currently in the cart (`cartItem?.quantity || 0`
in `ProductCard`). -/
def cartQty (s : CartState) (pid : String) : ℕ :=
  match s.items.find? (fun it => it.product.id = pid) with
  | some it => it.quantity
  | none => 0

/-- `ProductCard.handleIncrement`: add the product on the first press,
otherwise bump its quantity. -/
def pcIncrement (s : CartState) (p : Product) : CartState :=
  if cartQty s p.id = 0 then addItem s p
  else updateQuantity s p.id ((cartQty s p.id : ℤ) + 1)

/-- `ProductCard.handleDecrement`: decrement only when the quantity is
positive. -/
def pcDecrement (s : CartState) (p : Product) : CartState :=
  if 0 < cartQty s p.id then updateQuantity s p.id ((cartQty s p.id : ℤ) - 1)
  else s

/-- `CartItem.handleIncrement` (cart page row): bump the rendered line's
quantity. -/
def ciIncrement (s : CartState) (pid : String) : CartState :=
  match s.items.find? (fun it => it.product.id = pid) with
  | some it => updateQuantity s pid ((it.quantity : ℤ) + 1)
  | none => s

/-- `CartItem.handleDecrement` (cart page row): decrement only when the
rendered quantity is greater than 1. -/
def ciDecrement (s : CartState) (pid : String) : CartState :=
  match s.items.find? (fun it => it.product.id = pid) with
  | some it => if 1 < it.quantity then updateQuantity s pid ((it.quantity : ℤ) - 1) else s
  | none => s

/-- A cart operation reachable from the UI. -/
inductive CartOp where
  | pcInc (p : Product)
  | pcDec (p : Product)
  | ciInc (pid : String)
  | ciDec (pid : String)
  | remove (pid : String)
  | clear
  deriving DecidableEq

/-- Apply one UI cart operation. -/
def applyCartOp (s : CartState) (op : CartOp) : CartState :=
  match op with
  | .pcInc p => pcIncrement s p
  | .pcDec p => pcDecrement s p
  | .ciInc pid => ciIncrement s pid
  | .ciDec pid => ciDecrement s pid
  | .remove pid => removeItem s pid
  | .clear => clearCart s

/-- Apply a sequence of UI cart operations. -/
def applyCartOps (s : CartState) (ops : List CartOp) : CartState :=
  ops.foldl applyCartOp s

/-! ## Receipt tax breakdown (`src/app/receipt/page.tsx`) -/

/-- A line of the app-side order shown on the receipt
(`OrderItem` in `lib/types.ts`). -/
structure FrontItem where
  productId : String
  name : String
  price : ℚ
  quantity : ℕ
  taxRate : ℚ
  depositAmount : Option ℚ
  deriving DecidableEq

/-- One row of the receipt's tax table (`TaxBreakdown` in `lib/types.ts`). -/
structure TaxBreakdown where
  taxRate : ℚ
  taxAmount : ℚ
  excludingTax : ℚ
  includingTax : ℚ
  deriving DecidableEq

/-- One step of the `forEach` that accumulates `taxGroups`: add
`price * quantity` to the group of the item's tax rate, creating the group
on first sight. -/
def addToGroups (gs : List (ℚ × ℚ)) (i : FrontItem) : List (ℚ × ℚ) :=
  if gs.any (fun g => g.1 = i.taxRate) then
    gs.map (fun g => if g.1 = i.taxRate then (g.1, g.2 + i.price * i.quantity) else g)
  else
    gs ++ [(i.taxRate, i.price * i.quantity)]

/-- The `taxGroups` accumulator after processing all order items. -/
def taxGroups (items : List FrontItem) : List (ℚ × ℚ) :=
  items.foldl addToGroups []

/-- The receipt page's tax table: one row per group, with
`taxAmount = includingTax * rate / (100 + rate)` and
`excludingTax = includingTax - taxAmount`. -/
def taxBreakdowns (items : List FrontItem) : List TaxBreakdown :=
  (taxGroups items).map (fun g =>
    { taxRate := g.1
      taxAmount := g.2 * (g.1 / (100 + g.1))
      excludingTax := g.2 - g.2 * (g.1 / (100 + g.1))
      includingTax := g.2 })

/-- The displayed pant (deposit) line:
`items.reduce((sum, i) => sum + (i.depositAmount || 0) * i.quantity, 0)`. -/
def pantTotal (items : List FrontItem) : ℚ :=
  items.foldl (fun sum i => sum + orNum i.depositAmount 0 * i.quantity) 0

/-! ## App store persistence (`src/lib/stores/appStore.ts`) -/

/-- Age-verification record (`AgeVerification` in `lib/types.ts`); the
date fields are opaque strings here. -/
structure AgeVerification where
  status : String
  idType : Option String
  verifiedAt : Option String
  expiresAt : Option String
  deriving DecidableEq

/-- A partial age-verification record, as passed to `setAgeVerification`. -/
structure AgeVerificationPatch where
  status : Option String
  idType : Option (Option String)
  verifiedAt : Option (Option String)
  expiresAt : Option (Option String)
  deriving DecidableEq

/-- Spread-merge of a patch into an age-verification record. -/
def mergeAgeVerification (v : AgeVerification) (p : AgeVerificationPatch) : AgeVerification :=
  { status := p.status.getD v.status
    idType := p.idType.getD v.idType
    verifiedAt := p.verifiedAt.getD v.verifiedAt
    expiresAt := p.expiresAt.getD v.expiresAt }

/-- App-side order (`Order` in `lib/types.ts`). -/
structure AppOrder where
  id : String
  items : List FrontItem
  totalAmount : ℚ
  paymentMethod : String
  referenceNumber : String
  dispensed : Bool
  refundItems : Option (List FrontItem)
  refundAmount : Option ℚ
  refundId : Option String
  deriving DecidableEq

/-- The Zustand app store state (`AppState` in `appStore.ts`). -/
structure AppState where
  storeId : Option String
  ageVerification : AgeVerification
  currentOrder : Option AppOrder
  selectedPaymentMethod : Option String
  isLoading : Bool
  isDispensing : Bool
  dispensedCount : ℕ
  deriving DecidableEq

/-- Initial app store state. -/
def appInitial : AppState :=
  { storeId := none
    ageVerification := ⟨"none", none, none, none⟩
    currentOrder := none
    selectedPaymentMethod := none
    isLoading := false
    isDispensing := false
    dispensedCount := 0 }

/-- An app store operation (the setters exposed by `useAppStore`). -/
inductive AppOp where
  | setStoreId (id : String)
  | setAgeVerification (p : AgeVerificationPatch)
  | resetAgeVerification
  | setCurrentOrder (o : Option AppOrder)
  | setSelectedPaymentMethod (m : Option String)
  | setIsLoading (b : Bool)
  | setIsDispensing (b : Bool)
  | setDispensedCount (n : ℕ)
  deriving DecidableEq

/-- Apply one app store operation. -/
def applyAppOp (s : AppState) (op : AppOp) : AppState :=
  match op with
  | .setStoreId id => { s with storeId := some id }
  | .setAgeVerification p => { s with ageVerification := mergeAgeVerification s.ageVerification p }
  | .resetAgeVerification => { s with ageVerification := ⟨"none", none, none, none⟩ }
  | .setCurrentOrder o => { s with currentOrder := o }
  | .setSelectedPaymentMethod m => { s with selectedPaymentMethod := m }
  | .setIsLoading b => { s with isLoading := b }
  | .setIsDispensing b => { s with isDispensing := b }
  | .setDispensedCount n => { s with dispensedCount := n }

/-- Apply a sequence of app store operations. -/
def applyAppOps (s : AppState) (ops : List AppOp) : AppState :=
  ops.foldl applyAppOp s

/-- What the `persist` middleware writes for the app store. -/
structure PersistedApp where
  storeId : Option String
  ageVerification : AgeVerification
  deriving DecidableEq

/-- The `partialize` projection of `useAppStore`: exactly `storeId` and
`ageVerification`. -/
def partialize (s : AppState) : PersistedApp :=
  { storeId := s.storeId, ageVerification := s.ageVerification }

/-- The local-storage key of the app store's persist middleware. -/
def APP_STORAGE_KEY : String := "vm-app-storage"

/-- Modelled from the spec: the cart store (`lib/stores/cartStore`, not among
the provided sources) persists the cart contents to local storage; its key is
`CART.STORAGE_KEY` from `config/constants`. -/
def CART_STORAGE_KEY : String := "vamo-cart"

/-! ## Credential and token storage (`src/lib/api/auth.ts`) -/

/-- The credentials record `storeCredentials` writes. -/
structure StoredCredentials where
  clientId : String
  clientSecret : String
  storedAt : ℕ
  deriving DecidableEq

/-- Local-storage key for stored client credentials. -/
def CREDENTIALS_STORAGE_KEY : String := "vm-service-credentials"

/-- Local-storage key for a stored token (only ever removed, never written:
the `storeToken` call is commented out). -/
def TOKEN_STORAGE_KEY : String := "vm-service-token"

/-- `storeCredentials`: the local-storage writes it performs (key, record). -/
def storeCredentials (clientId clientSecret : String) (now : ℕ) :
    List (String × StoredCredentials) :=
  [(CREDENTIALS_STORAGE_KEY, ⟨clientId, clientSecret, now⟩)]

/-! ## Token acquisition (`src/lib/api/auth.ts`) -/

/-- Token endpoint response (`TokenResponse` in `auth.ts`). -/
structure TokenResponse where
  access_token : String
  refresh_token : String
  token_type : String
  expires_at : String
  project_id : String
  deriving DecidableEq

/-- Outcome of the single `fetch` of the token endpoint: an HTTP response
whose body may or may not parse as a `TokenResponse`, or a network error. -/
inductive TokenFetchRes where
  | http (ok : Bool) (status : ℕ) (parsed : Option TokenResponse)
  | netErr
  deriving DecidableEq

/-- Environment of the auth module: env-var configuration, anything stored
under the credentials key, and the behaviour of the token endpoint. -/
structure AuthCfg where
  vmServiceUrl : String
  envClientId : String
  envClientSecret : String
  storedCreds : Option (String × String)
  tokenRes : TokenFetchRes
  deriving DecidableEq

/-- An observable side effect of the auth module. -/
inductive AuthEv where
  | readLS (key : String)
  | writeLS (key : String)
  | fetchPOST (url : String)
  deriving DecidableEq

/-- First resolution step of `getAccessToken`: keep the provided parameters
when both are truthy, otherwise fall back to the environment variables. -/
def resolveStep1 (cfg : AuthCfg) (clientId clientSecret : Option String) :
    Option String × Option String :=
  if strTruthy clientId ∧ strTruthy clientSecret then (clientId, clientSecret)
  else (some (orStr clientId cfg.envClientId), some (orStr clientSecret cfg.envClientSecret))

/-- Credential resolution inside `getAccessToken`: provided parameters, then
environment variables, then stored credentials; yields the read events it
performs and the resolved (possibly still falsy) pair. -/
def resolveCredentials (cfg : AuthCfg) (clientId clientSecret : Option String) :
    List AuthEv × Option String × Option String :=
  let p1 := resolveStep1 cfg clientId clientSecret
  if strTruthy p1.1 ∧ strTruthy p1.2 then ([], p1.1, p1.2)
  else
    match cfg.storedCreds with
    | some (sc1, sc2) =>
      ([.readLS CREDENTIALS_STORAGE_KEY], some (orStr p1.1 sc1), some (orStr p1.2 sc2))
    | none => ([.readLS CREDENTIALS_STORAGE_KEY], p1.1, p1.2)

/-- Outcome of the token request: throw for network errors, non-ok statuses,
unparseable bodies and missing access tokens, otherwise the token. -/
def tokenResult : TokenFetchRes → Except String String
  | .netErr => .error "Failed to connect to authentication server. Please check your VM_SERVICE_URL configuration."
  | .http ok status parsed =>
    if ok = false then
      .error ("Authentication failed with status " ++ toString status)
    else
      match parsed with
      | none => .error "Invalid response format from server"
      | some t =>
        if t.access_token = "" then .error "Invalid token response: missing access_token"
        else .ok t.access_token

/-- `getAccessToken`: always fetches a fresh token from
`POST {base}/api/v1/token`; never consults or writes the token storage key.
Returns the side-effect log and either the access token or the thrown error
message. -/
def getAccessToken (cfg : AuthCfg) (clientId clientSecret : Option String) :
    List AuthEv × Except String String :=
  let r := resolveCredentials cfg clientId clientSecret
  if ¬ (strTruthy r.2.1 ∧ strTruthy r.2.2) then
    (r.1, .error "CLIENT_ID and CLIENT_SECRET must be configured in environment variables (NEXT_PUBLIC_VM_SERVICE_CLIENT_ID and NEXT_PUBLIC_VM_SERVICE_CLIENT_SECRET)")
  else if cfg.vmServiceUrl = "" then
    (r.1, .error "VM_SERVICE_URL is not configured")
  else
    (r.1 ++ [.fetchPOST (cfg.vmServiceUrl ++ "/api/v1/token")], tokenResult cfg.tokenRes)

/-- `getCurrentAccessToken`: delegates to `getAccessToken` (no caching). -/
def getCurrentAccessToken (cfg : AuthCfg) (clientId clientSecret : Option String) :
    List AuthEv × Except String String :=
  getAccessToken cfg clientId clientSecret

/-- `getStoredProjectId`: tokens are not cached, so this always returns
`null`. -/
def getStoredProjectId : Option String := none

/-- Side-effect log of two successive API calls, each of which obtains its
own token via `getCurrentAccessToken`. -/
def twoTokenAcquisitions (cfg : AuthCfg) : List AuthEv :=
  (getCurrentAccessToken cfg none none).1 ++ (getCurrentAccessToken cfg none none).1

/-! ## REST wrappers (`src/lib/api/vmService.ts`) -/

/-- Error-shaped JSON body of a failed API response (`ApiError`). -/
structure ApiErrorJson where
  error : Option String
  message : Option String
  deriving DecidableEq

/-- An HTTP response as observed by a wrapper: status, the body's parse as an
error record, and the body's parse as the expected payload type. -/
structure HttpResp (α : Type) where
  ok : Bool
  status : ℕ
  rawText : String
  errorJson : Option ApiErrorJson
  value : Option α
  deriving DecidableEq

/-- `handleResponse`: throw on a non-ok response (preferring the body's
`error`/`message`), otherwise parse the payload. -/
def handleResponse {α : Type} (r : HttpResp α) : Except String α :=
  if r.ok = false then
    match r.errorJson with
    | some e => .error (orStr e.error (orStr e.message ("API request failed with status " ++ toString r.status)))
    | none => .error ("API request failed with status " ++ toString r.status ++ ": " ++ r.rawText)
  else
    match r.value with
    | some v => .ok v
    | none => .error "Invalid response format from server"

/-- Result of a wrapper invocation: the URLs it fetched (in order) and the
value it returned or the error it threw. -/
structure WrapperRun (α : Type) where
  fetched : List String
  result : Except String α

/-- Backend dispense response (`DispenseResponse` in `vmService.ts`);
`message` is optional to model a missing field. -/
structure DispenseResponse where
  success : Bool
  message : Option String
  deriving DecidableEq

/-- `dispenseProduct`: one POST to the dispense endpoint, response handled by
`handleResponse`.  `server n` is the response the server would give to the
n-th request this invocation makes. -/
def dispenseProduct (baseUrl storeId vmId : String)
    (server : ℕ → HttpResp DispenseResponse) : WrapperRun DispenseResponse :=
  ⟨[baseUrl ++ "/api/v1/stores/" ++ storeId ++ "/vms/" ++ vmId ++ "/dispense"],
    handleResponse (server 0)⟩

/-- Backend order item (element of `Order.items` from `GET /orders/{id}`);
`id` is `none` when the backend record lacks an item id. -/
structure BackendItem where
  id : Option String
  spring_id : String
  product_name : String
  unit_price : ℚ
  quantity : ℕ
  tax_rate : ℚ
  selection_number : String
  deriving DecidableEq

/-- Backend order (`Order` in `vmService.ts`, the fields `handleCollect`
reads). -/
structure BackendOrder where
  payment_verified : Bool
  order_status : String
  items : Option (List BackendItem)
  deriving DecidableEq

/-- `getOrder`: one GET of the order endpoint, unwrapping the `data` field. -/
def getOrder (baseUrl orderId : String)
    (server : ℕ → HttpResp BackendOrder) : WrapperRun BackendOrder :=
  ⟨[baseUrl ++ "/api/v1/orders/" ++ orderId], handleResponse (server 0)⟩

/-- `initiateDispense`: one POST to the order's dispense endpoint. -/
def initiateDispense (baseUrl orderId : String)
    (server : ℕ → HttpResp Bool) : WrapperRun Bool :=
  ⟨[baseUrl ++ "/api/v1/orders/" ++ orderId ++ "/dispense"], handleResponse (server 0)⟩

/-- `updateDispenseStatus`: one POST to the order item's dispense-status
endpoint. -/
def updateDispenseStatus (baseUrl orderId itemId : String)
    (server : ℕ → HttpResp Bool) : WrapperRun Bool :=
  ⟨[baseUrl ++ "/api/v1/orders/" ++ orderId ++ "/items/" ++ itemId ++ "/dispense-status"],
    handleResponse (server 0)⟩

/-- `completeDispense`: one POST to the order's dispense-complete endpoint. -/
def completeDispense (baseUrl orderId : String)
    (server : ℕ → HttpResp BackendOrder) : WrapperRun BackendOrder :=
  ⟨[baseUrl ++ "/api/v1/orders/" ++ orderId ++ "/dispense/complete"], handleResponse (server 0)⟩

/-- `createOrder`: one POST to the orders endpoint. -/
def createOrder (baseUrl : String)
    (server : ℕ → HttpResp BackendOrder) : WrapperRun BackendOrder :=
  ⟨[baseUrl ++ "/api/v1/orders"], handleResponse (server 0)⟩

/-- `createRefund`: one POST to the order's refunds endpoint. -/
def createRefund (baseUrl orderId : String)
    (server : ℕ → HttpResp Bool) : WrapperRun Bool :=
  ⟨[baseUrl ++ "/api/v1/orders/" ++ orderId ++ "/refunds"], handleResponse (server 0)⟩

/-- `processRefund`: one POST to the refund's process endpoint. -/
def processRefund (baseUrl refundId : String)
    (server : ℕ → HttpResp Bool) : WrapperRun Bool :=
  ⟨[baseUrl ++ "/api/v1/refunds/" ++ refundId ++ "/process"], handleResponse (server 0)⟩

/-- `getSpringsByStoreId`: one GET of the springs endpoint, with its special
handling of a 401 before `handleResponse`. -/
def getSpringsByStoreId (baseUrl storeId : String)
    (server : ℕ → HttpResp (List Spring)) : WrapperRun (List Spring) :=
  let url := baseUrl ++ "/api/v1/stores/" ++ storeId ++ "/springs?limit=100&offset=0"
  let r := server 0
  if r.status = 401 then
    ⟨[url], .error "Unauthorized (401)"⟩
  else
    ⟨[url], handleResponse r⟩

/-! ## The dispensing flow (`src/app/dispensing/page.tsx`, `handleCollect`)

The handler is modelled as a pure function from the page's state and an
environment (the outcome of each awaited API call, indexed in call order)
to a trace of issued API calls plus the final UI state.  Alongside the
trace the model keeps a ghost audit: one record per attempted unit, noting
the outcome of its `dispenseProduct` call and whether the status update
that followed it threw. -/

/-- Result of one awaited API call: the parsed value, or the thrown error
message. -/
inductive CallRes (α : Type) where
  | ok (val : α)
  | err (msg : String)
  deriving DecidableEq

/-- Refund record returned by `createRefund` (`data.id`,
`data.refund_number`). -/
structure RefundData where
  id : String
  refund_number : String
  deriving DecidableEq

/-- Environment of one `handleCollect` run: the outcome of each awaited
call.  `getOrderRes 0` is the payment check, `getOrderRes 1` the item
fetch; `dispenseRes k` / `updateRes k` are the outcomes of the k-th
`dispenseProduct` / `updateDispenseStatus` call of the run. -/
structure DispEnv where
  getOrderRes : ℕ → CallRes BackendOrder
  initiateRes : CallRes Unit
  dispenseRes : ℕ → CallRes DispenseResponse
  updateRes : ℕ → CallRes Unit
  completeRes : CallRes BackendOrder
  createRefundRes : CallRes RefundData
  processRefundRes : CallRes Unit

/-- Dispense status reported to the backend. -/
inductive DStat where
  | success
  | failed
  deriving DecidableEq

/-- One element of a refund request's `failed_items`. -/
structure RefundItemReq where
  product_name : String
  selection_number : String
  quantity : ℕ
  unit_price : ℚ
  total_price : ℚ
  reason : String
  deriving DecidableEq

/-- Payload of `createRefund` (`RefundRequest` in `vmService.ts`). -/
structure RefundReq where
  refund_amount : ℚ
  refund_reason : String
  refund_type : String
  failed_items : List RefundItemReq
  deriving DecidableEq

/-- Entry of the run's local `failedProducts` list. -/
structure FailedProd where
  productId : String
  name : String
  price : ℚ
  quantity : ℕ
  taxRate : ℚ
  reason : String
  deriving DecidableEq

/-- An API call issued by `handleCollect`, as recorded in the run trace. -/
inductive REv where
  | getOrderEv (oid : String)
  | initiateEv (oid : String)
  | dispenseEv (storeId vmId springId itemId : String)
  | updateEv (oid : String) (itemId : Option String) (status : DStat) (errMsg : Option String)
  | completeEv (oid : String)
  | createRefundEv (oid : String) (req : RefundReq)
  | processRefundEv (rid : String)
  deriving DecidableEq

/-- The merged product's `selectionNumber`: a number when a cart product was
spread over the base object (`none` models `NaN`), otherwise the backend
item's `selection_number` string. -/
inductive MSel where
  | num (v : Option ℤ)
  | str (v : String)
  deriving DecidableEq

/-- JavaScript truthiness of a merged selection number. -/
def mselTruthy : MSel → Bool
  | .num (some k) => k ≠ 0
  | .num none => false
  | .str v => v ≠ ""

/-- `product.selectionNumber?.toString() || backendOrderItem.selection_number`. -/
def mselToString (m : MSel) (fb : String) : String :=
  let t := match m with
    | .num (some k) => toString k
    | .num none => "NaN"
    | .str v => v
  if t = "" then fb else t

/-- The fields of the spread-merged `product` object that the dispense loop
reads. -/
structure MergedProd where
  name : String
  price : ℚ
  taxRate : ℚ
  sel : MSel
  vmId : Option String
  storeId : Option String
  deriving DecidableEq

/-- The spread merge `{backend item data, ...frontendItem, ...cart product}`:
a matching cart product overrides everything it defines; failing that a
frontend order item overrides name/price/taxRate; `vmId`/`storeId` exist
only on cart products. -/
def mergeProduct (bi : BackendItem) (fItem : Option FrontItem) (cartP : Option Product) :
    MergedProd :=
  match cartP with
  | some p => ⟨p.name, p.price, p.taxRate, .num p.selectionNumber, p.vmId, p.storeId⟩
  | none =>
    match fItem with
    | some f => ⟨f.name, f.price, f.taxRate, .str bi.selection_number, none, none⟩
    | none => ⟨bi.product_name, bi.unit_price, bi.tax_rate, .str bi.selection_number, none, none⟩

/-- The `frontendItemMap`: product id → queue of frontend order items. -/
abbrev FrontMap := List (String × List FrontItem)

/-- `Map.get`. -/
def fmLookup (m : FrontMap) (k : String) : Option (List FrontItem) :=
  (m.find? (fun e => e.1 = k)).map (fun e => e.2)

/-- Append an item to a key's queue, creating the queue on first sight. -/
def fmInsert (m : FrontMap) (k : String) (i : FrontItem) : FrontMap :=
  if (m.find? (fun e => e.1 = k)).isSome then
    m.map (fun e => if e.1 = k then (e.1, e.2 ++ [i]) else e)
  else m ++ [(k, [i])]

/-- Build the `frontendItemMap` from `currentOrder.items`, keyed by
`productId` (falsy keys are skipped). -/
def buildFrontMap (fitems : List FrontItem) : FrontMap :=
  fitems.foldl (fun m i => if i.productId = "" then m else fmInsert m i.productId i) []

/-- Drop the head of a key's queue (the `shift()` mutation). -/
def fmSetTail (m : FrontMap) (k : String) : FrontMap :=
  m.map (fun e => if e.1 = k then (e.1, e.2.tail) else e)

/-- `frontendItemMap.get(springId) || frontendItemMap.get(orderItemId)`
followed by `shift()`: the shifted item (or `none`) and the updated map. -/
def popFront (m : FrontMap) (k1 k2 : String) : Option FrontItem × FrontMap :=
  match fmLookup m k1 with
  | some q => (q.head?, fmSetTail m k1)
  | none =>
    match fmLookup m k2 with
    | some q => (q.head?, fmSetTail m k2)
    | none => (none, m)

/-- Ghost record of one attempted unit: outcome of its `dispenseProduct`
call, and whether the status update issued right after it threw. -/
inductive DispOutcome where
  | dispOk
  | dispFailed (msg : String)
  | dispThrew (msg : String)
  deriving DecidableEq

/-- Audit entry for one attempted unit. -/
structure UnitAudit where
  itemId : String
  price : ℚ
  outcome : DispOutcome
  updThrew : Bool
  deriving DecidableEq

/-- How many refund entries the unit loop records for a unit: none for a
clean success; one for a dispense failure, a dispense exception, or a
status-update exception after a success; two when a dispense failure is
followed by a status update that throws. -/
def unitRefundCount (u : UnitAudit) : ℕ :=
  match u.outcome with
  | .dispOk => if u.updThrew then 1 else 0
  | .dispFailed _ => if u.updThrew then 2 else 1
  | .dispThrew _ => 1

/-- Per-unit data derived from the merged product before the unit loop. -/
structure UnitCtx where
  oid : String
  itemId : String
  springId : String
  effName : String
  effPrice : ℚ
  effTax : ℚ
  selStr : String
  vmId : String
  pStoreId : String
  deriving DecidableEq

/-- Build the unit context from the merged product
(`product.price || backendOrderItem.unit_price` and friends;
`storeId || product.storeId` for the store id). -/
def unitCtxOf (storeIdZ oid : String) (bi : BackendItem) (mp : MergedProd) : UnitCtx :=
  { oid := oid
    itemId := bi.id.getD ""
    springId := bi.spring_id
    effName := if mp.name = "" then bi.product_name else mp.name
    effPrice := if mp.price = 0 then bi.unit_price else mp.price
    effTax := if mp.taxRate = 0 then bi.tax_rate else mp.taxRate
    selStr := mselToString mp.sel bi.selection_number
    vmId := mp.vmId.getD ""
    pStoreId := if storeIdZ = "" then mp.storeId.getD "" else storeIdZ }

/-- `failedProducts` entry recorded for a unit. -/
def unitFailedProd (c : UnitCtx) (reason : String) : FailedProd :=
  ⟨c.springId, c.effName, c.effPrice, 1, c.effTax, reason⟩

/-- `failedItemsForRefund` entry recorded for a unit. -/
def unitRefundItem (c : UnitCtx) (reason : String) : RefundItemReq :=
  ⟨c.effName, c.selStr, 1, c.effPrice, c.effPrice, reason⟩

/-- Result of attempting one unit. -/
structure UnitRes where
  evs : List REv
  fps : List FailedProd
  frs : List RefundItemReq
  audit : UnitAudit
  uAdv : ℕ
  succInc : ℕ

/-- One iteration of the per-unit loop: the `dispenseProduct` call, the
status update that follows it, and — when something throws — the `catch`
block with its failure bookkeeping and second status update. -/
def processUnit (c : UnitCtx) (env : DispEnv) (dCnt uCnt : ℕ) : UnitRes :=
  let dEv := REv.dispenseEv c.pStoreId c.vmId c.springId c.itemId
  match env.dispenseRes dCnt with
  | .ok r =>
    if r.success then
      match env.updateRes uCnt with
      | .ok _ =>
        ⟨[dEv, .updateEv c.oid (some c.itemId) .success none], [], [],
          ⟨c.itemId, c.effPrice, .dispOk, false⟩, 1, 1⟩
      | .err m =>
        ⟨[dEv, .updateEv c.oid (some c.itemId) .success none,
            .updateEv c.oid (some c.itemId) .failed (some m)],
          [unitFailedProd c m], [unitRefundItem c m],
          ⟨c.itemId, c.effPrice, .dispOk, true⟩, 2, 1⟩
    else
      let emsg := orStr r.message "Dispense failed"
      match env.updateRes uCnt with
      | .ok _ =>
        ⟨[dEv, .updateEv c.oid (some c.itemId) .failed (some emsg)],
          [unitFailedProd c emsg], [unitRefundItem c emsg],
          ⟨c.itemId, c.effPrice, .dispFailed emsg, false⟩, 1, 0⟩
      | .err m2 =>
        ⟨[dEv, .updateEv c.oid (some c.itemId) .failed (some emsg),
            .updateEv c.oid (some c.itemId) .failed (some m2)],
          [unitFailedProd c emsg, unitFailedProd c m2],
          [unitRefundItem c emsg, unitRefundItem c m2],
          ⟨c.itemId, c.effPrice, .dispFailed emsg, true⟩, 2, 0⟩
  | .err m =>
    ⟨[dEv, .updateEv c.oid (some c.itemId) .failed (some m)],
      [unitFailedProd c m], [unitRefundItem c m],
      ⟨c.itemId, c.effPrice, .dispThrew m, false⟩, 1, 0⟩

/-- Accumulator of the item loop. -/
structure LoopAcc where
  evs : List REv
  fm : FrontMap
  fps : List FailedProd
  frs : List RefundItemReq
  audits : List UnitAudit
  dCnt : ℕ
  uCnt : ℕ
  succ : ℕ

/-- The per-unit loop over one item's quantity. -/
def processUnits (c : UnitCtx) (env : DispEnv) (acc : LoopAcc) : ℕ → LoopAcc
  | 0 => acc
  | Nat.succ n =>
    let r := processUnit c env acc.dCnt acc.uCnt
    processUnits c env
      { acc with
        evs := acc.evs ++ r.evs
        fps := acc.fps ++ r.fps
        frs := acc.frs ++ r.frs
        audits := acc.audits ++ [r.audit]
        dCnt := acc.dCnt + 1
        uCnt := acc.uCnt + r.uAdv
        succ := acc.succ + r.succInc } n

/-- Abort record: an exception escaped the item loop (an unguarded status
update threw), ending the run in the outer catch. -/
structure LoopAbort where
  evs : List REv
  msg : String
  succ : ℕ
  audits : List UnitAudit

/-- Process one backend order item: the missing-id and missing-fields guard
paths (whose bare status updates can abort the run), or the unit loop. -/
def processItem (storeIdZ oid : String) (cartItems : List CartItem) (env : DispEnv)
    (acc : LoopAcc) (bi : BackendItem) : Except LoopAbort LoopAcc :=
  if ¬ strTruthy bi.id then
    let fp : FailedProd :=
      ⟨bi.spring_id, orStr (some bi.product_name) "Unknown", bi.unit_price, bi.quantity,
        bi.tax_rate, "Backend order item missing ID"⟩
    let ev := REv.updateEv oid none .failed (some "Backend order item missing ID")
    match env.updateRes acc.uCnt with
    | .ok _ =>
      .ok { acc with evs := acc.evs ++ [ev], fps := acc.fps ++ [fp], uCnt := acc.uCnt + 1 }
    | .err m => .error ⟨acc.evs ++ [ev], m, acc.succ, acc.audits⟩
  else
    let iid := bi.id.getD ""
    let pf := popFront acc.fm bi.spring_id iid
    let cartP := (cartItems.find? (fun ci => ci.product.id = bi.spring_id)).map (fun ci => ci.product)
    let mp := mergeProduct bi pf.1 cartP
    if ¬ (mselTruthy mp.sel ∧ strTruthy mp.vmId ∧ strTruthy mp.storeId) then
      let fp : FailedProd :=
        ⟨bi.spring_id, if mp.name = "" then bi.product_name else mp.name,
          if mp.price = 0 then bi.unit_price else mp.price, bi.quantity,
          if mp.taxRate = 0 then bi.tax_rate else mp.taxRate,
          "Missing required product information"⟩
      let ev := REv.updateEv oid (some iid) .failed (some "Missing required product information")
      match env.updateRes acc.uCnt with
      | .ok _ =>
        .ok { acc with evs := acc.evs ++ [ev], fm := pf.2, fps := acc.fps ++ [fp], uCnt := acc.uCnt + 1 }
      | .err m => .error ⟨acc.evs ++ [ev], m, acc.succ, acc.audits⟩
    else
      .ok (processUnits (unitCtxOf storeIdZ oid bi mp) env { acc with fm := pf.2 } bi.quantity)

/-- The item loop (step 4 of `handleCollect`). -/
def processItems (storeIdZ oid : String) (cartItems : List CartItem) (env : DispEnv)
    (acc : LoopAcc) : List BackendItem → Except LoopAbort LoopAcc
  | [] => .ok acc
  | bi :: rest =>
    match processItem storeIdZ oid cartItems env acc bi with
    | .ok acc2 => processItems storeIdZ oid cartItems env acc2 rest
    | .error ab => .error ab

/-- Dispensing page state as seen by `handleCollect`. -/
structure PageSt where
  storeId : Option String
  currentOrder : Option AppOrder
  cartItems : List CartItem

/-- Outcome of a `handleCollect` run: the API call trace, the final UI state
(`isDispensing` is `none` when never set), whether the cart was cleared, and
the ghost unit audit. -/
structure RunOut where
  trace : List REv
  phase : String
  error : Option String
  isDispensing : Option Bool
  dispensedCount : ℕ
  cartCleared : Bool
  audits : List UnitAudit

/-- `handleCollect`: guards, the paid check, `initiateDispense`, the item
fetch, the item/unit loop, `completeDispense`, and the refund step. -/
def handleCollect (st : PageSt) (env : DispEnv) : RunOut :=
  if ¬ strTruthy st.storeId then
    ⟨[], "ready", some "Store ID is missing. Please go back and try again.", none, 0, false, []⟩
  else
    match st.currentOrder with
    | none =>
      ⟨[], "ready", some "Order information missing. Please go back and try the payment again.",
        none, 0, false, []⟩
    | some order =>
      if order.id = "" then
        ⟨[], "ready", some "Order information missing. Please go back and try the payment again.",
          none, 0, false, []⟩
      else
        let sid := st.storeId.getD ""
        let oid := order.id
        let ev0 := [REv.getOrderEv oid]
        match env.getOrderRes 0 with
        | .err m => ⟨ev0, "ready", some m, some false, 0, false, []⟩
        | .ok chk =>
          if chk.payment_verified = false then
            ⟨ev0, "ready",
              some "Payment not verified. Cannot dispense products. Please contact support.",
              some false, 0, false, []⟩
          else if chk.order_status ≠ "paid" then
            ⟨ev0, "ready",
              some ("Order is not in paid status (current: " ++ chk.order_status ++
                "). Cannot dispense."),
              some false, 0, false, []⟩
          else
            let ev1 := ev0 ++ [REv.initiateEv oid]
            match env.initiateRes with
            | .err m => ⟨ev1, "ready", some m, some false, 0, false, []⟩
            | .ok _ =>
              let ev2 := ev1 ++ [REv.getOrderEv oid]
              match env.getOrderRes 1 with
              | .err m => ⟨ev2, "ready", some m, some false, 0, false, []⟩
              | .ok bo =>
                let bitems := bo.items.getD []
                if bitems.isEmpty then
                  ⟨ev2, "ready",
                    some "No order items found in backend. Cannot proceed with dispense.",
                    some false, 0, false, []⟩
                else
                  match processItems sid oid st.cartItems env
                      ⟨[], buildFrontMap order.items, [], [], [], 0, 0, 0⟩ bitems with
                  | .error ab =>
                    ⟨ev2 ++ ab.evs, "ready", some ab.msg, some false, ab.succ, false, ab.audits⟩
                  | .ok acc =>
                    let evC := ev2 ++ acc.evs ++ [REv.completeEv oid]
                    match env.completeRes with
                    | .err m => ⟨evC, "ready", some m, some false, acc.succ, false, acc.audits⟩
                    | .ok cd =>
                      let cleared := cd.order_status ≠ "failed"
                      let refundEvs :=
                        if acc.frs.isEmpty then []
                        else
                          let req : RefundReq :=
                            ⟨(acc.frs.map (fun i => i.total_price)).sum,
                              "Product dispense failed", "failed_dispense", acc.frs⟩
                          match env.createRefundRes with
                          | .ok rd => [REv.createRefundEv oid req, REv.processRefundEv rd.id]
                          | .err _ => [REv.createRefundEv oid req]
                      let fin :=
                        if acc.fps.isEmpty then ("complete", (none : Option String))
                        else if 0 < acc.succ then ("partial", (none : Option String))
                        else ("ready",
                          some "Failed to dispense products. Please contact support.")
                      ⟨evC ++ refundEvs, fin.1, fin.2, some false, acc.succ, cleared, acc.audits⟩

/-! ## The payment flow (`app/payment/page.tsx`, `handlePay`) -/

/-- String inclusion (JavaScript `String.prototype.includes`). -/
def strIncludes (s pat : String) : Bool :=
  (s.splitOn pat).length ≠ 1

/-- Pre-payment validation payload (`validationResult.data`). -/
structure ValidationData where
  valid : Bool
  vm_connected : Bool
  message : Option String
  errors : Option (List String)
  deriving DecidableEq

/-- `createOrder` payload (`orderResponse.data`, the fields `handlePay`
reads). -/
structure PayOrderData where
  id : String
  order_number : String
  deriving DecidableEq

/-- `createRazorpayOrder` payload. -/
structure RzpOrderData where
  razorpay_order_id : String
  amount : ℚ
  currency : String
  order_number : String
  deriving DecidableEq

/-- Environment of one `handlePay` run. -/
structure PayEnv where
  validateRes : CallRes ValidationData
  createOrderRes : CallRes PayOrderData
  createRazorpayRes : CallRes RzpOrderData
  razorpayKey : Option String

/-- An API call or checkout action issued by `handlePay`. -/
inductive PayEv where
  | validateEv
  | createOrderEv
  | createRazorpayEv
  | openCheckoutEv
  deriving DecidableEq

/-- A user-facing toast notice shown during the run. -/
inductive Notice where
  | errorN (title : String)
  | warningN (title : String)
  | loadingN (title : String)
  | updateN (kind : String) (title : String)
  deriving DecidableEq

/-- The outer catch's `showError`, skipped for the two message families the
handler reports inline. -/
def catchNotices (m : String) : List Notice :=
  if strIncludes m "not yet available" ∨ strIncludes m "not supported" then []
  else [.errorN "Payment Error"]

/-- Outcome of a `handlePay` run. -/
structure PayRun where
  trace : List PayEv
  notices : List Notice
  error : Option String
  isLoading : Option Bool
  deriving DecidableEq

/-- `handlePay`: guards (method, cart, store id, VM id), the monitored VM
status checks, pre-payment validation (`valid` and `vm_connected`), then
order creation and the per-method payment branches. -/
def handlePay (method : Option String) (items : List CartItem)
    (storeIdFromStore : Option String) (vmStatus : String) (env : PayEnv) : PayRun :=
  match method with
  | none => ⟨[], [.warningN "No Payment Method Selected"], none, none⟩
  | some pm =>
    if items.isEmpty then ⟨[], [.errorN "CART_EMPTY"], none, some false⟩
    else
      let firstP := items.head?.map (fun it => it.product)
      let storeIdStr := orStr (firstP.bind (fun p => p.storeId)) (orStr storeIdFromStore "")
      let vmIdStr := orStr (firstP.bind (fun p => p.vmId)) ""
      if storeIdStr = "" then ⟨[], [.errorN "Configuration Error"], none, some false⟩
      else if vmIdStr = "" then ⟨[], [.errorN "Configuration Error"], none, some false⟩
      else if vmStatus = "offline" then
        ⟨[], [.errorN "VM_OFFLINE"],
          some "The vending machine is currently offline. Please try again later.", some false⟩
      else if vmStatus = "error" then
        ⟨[], [.errorN "VM_DISCONNECTED"],
          some "Cannot verify machine connection. Please try again.", some false⟩
      else
        let n0 := [Notice.loadingN "Preparing your order...",
          Notice.updateN "info" "Checking Product Availability"]
        match env.validateRes with
        | .err m => ⟨[.validateEv], n0 ++ catchNotices m, some m, some false⟩
        | .ok v =>
          if v.valid = false then
            let emsg := orStr v.message "Order validation failed"
            let derr :=
              match v.errors with
              | some es =>
                let j := String.intercalate ", " es
                if j = "" then emsg else j
              | none => emsg
            ⟨[.validateEv],
              n0 ++ [.updateN "error" "Validation Failed", .errorN "Cannot Process Order"],
              some derr, some false⟩
          else if v.vm_connected = false then
            ⟨[.validateEv], n0 ++ [.updateN "error" "Machine Offline", .errorN "VM_OFFLINE"],
              some "The vending machine is currently offline. Please try again later.",
              some false⟩
          else
            let n1 := n0 ++ [Notice.updateN "info" "Creating Order"]
            match env.createOrderRes with
            | .err m => ⟨[.validateEv, .createOrderEv], n1 ++ catchNotices m, some m, some false⟩
            | .ok _ =>
              if pm = "razorpay" then
                let n2 := n1 ++ [Notice.updateN "info" "Opening Payment Gateway"]
                match env.createRazorpayRes with
                | .err m =>
                  ⟨[.validateEv, .createOrderEv, .createRazorpayEv], n2 ++ catchNotices m,
                    some m, some false⟩
                | .ok _ =>
                  let n3 := n2 ++ [Notice.updateN "success" "Ready for Payment"]
                  if ¬ strTruthy env.razorpayKey then
                    ⟨[.validateEv, .createOrderEv, .createRazorpayEv],
                      n3 ++ [.errorN "Configuration Error"] ++
                        catchNotices "Razorpay key not configured",
                      some "Razorpay key not configured", some false⟩
                  else
                    ⟨[.validateEv, .createOrderEv, .createRazorpayEv, .openCheckoutEv], n3,
                      none, some true⟩
              else if pm = "swish" ∨ pm = "card" then
                let lbl := if pm = "swish" then "Swish" else "Card"
                ⟨[.validateEv, .createOrderEv], n1 ++ [.updateN "error" "Not Available"],
                  some (lbl ++ " payment is not yet available. Please use Razorpay."),
                  some false⟩
              else
                ⟨[.validateEv, .createOrderEv],
                  n1 ++ catchNotices ("Payment method " ++ pm ++ " is not supported"),
                  some ("Payment method " ++ pm ++ " is not supported"), some false⟩

/-- A demo spring with parseable linked-product data. -/
def demoSpring1 : Spring :=
  ⟨"sp1", "vm1", "s1", "5", 10, 3,
    some (.jobj ⟨some "Cola", none, some 10, none, none, none, none, none, some 25, none, none, none⟩),
    some "working", "x"⟩

/-- Demo springs for the C6 witness: one available, one out of stock, one
with an unparseable linked product. -/
def demoSprings : List Spring :=
  [demoSpring1,
    ⟨"sp2", "vm1", "s1", "6", 10, 0,
      some (.jobj ⟨some "Fanta", none, some 12, none, none, none, none, none, some 25, none, none, none⟩),
      some "working", "x"⟩,
    ⟨"sp3", "vm1", "s1", "7", 10, 2, some (.jstr none), some "working", "x"⟩]

/-- Sum of the totals of the group entries with a given rate. -/
def totalFor : List (ℚ × ℚ) → ℚ → ℚ
  | [], _ => 0
  | g :: gs, r => (if g.1 = r then g.2 else 0) + totalFor gs r

/-- Sum of `price * quantity` over the items with a given tax rate. -/
def sumFor : List FrontItem → ℚ → ℚ
  | [], _ => 0
  | i :: is, r => (if i.taxRate = r then i.price * i.quantity else 0) + sumFor is r

/-- The rates present in a group list. -/
def gKeys (gs : List (ℚ × ℚ)) : List ℚ := gs.map Prod.fst

/-- Demo order items for the C9 witness. -/
def demoItems : List FrontItem :=
  [⟨"sp1", "Cola", 10, 2, 25, some 2⟩, ⟨"sp2", "Bread", 20, 1, 12, none⟩,
    ⟨"sp3", "Fanta", 10, 1, 25, some 2⟩]

/-- The app-store operations the spec calls transient. -/
def transientAppOp : AppOp → Bool
  | .setCurrentOrder _ => true
  | .setSelectedPaymentMethod _ => true
  | .setIsLoading _ => true
  | .setIsDispensing _ => true
  | .setDispensedCount _ => true
  | _ => false

/-- A demo app-store order used in witnesses. -/
def demoOrder : AppOrder :=
  { id := "o1", items := demoItems, totalAmount := 42, paymentMethod := "razorpay",
    referenceNumber := "ref-1", dispensed := false, refundItems := none,
    refundAmount := none, refundId := none }

/-- A demo product used in cart witnesses. -/
def demoProduct : Product :=
  { id := "sp1", name := "Cola", price := 10, image := "img", category := "Drinks",
    isAgeRestricted := false, taxRate := 25, depositAmount := some 2,
    selectionNumber := some 5, inventory := some 3, capacity := some 10,
    springStatus := some "working", stripeCode := some "x", vmId := some "vm1",
    storeId := some "s1" }

/-- Fetch events among auth side effects. -/
def isFetchEv : AuthEv → Bool
  | .fetchPOST _ => true
  | _ => false

/-- Connection-status payload (`ConnectionStatusResponse`). -/
structure ConnectionStatusResponse where
  connected : Bool
  vm_id : String
  store_id : String
  last_seen : Option String
  deriving DecidableEq

/-- `getConnectionStatus`: one GET of the connection-status endpoint. -/
def getConnectionStatus (baseUrl storeId vmId : String)
    (server : ℕ → HttpResp ConnectionStatusResponse) : WrapperRun ConnectionStatusResponse :=
  ⟨[baseUrl ++ "/api/v1/stores/" ++ storeId ++ "/vms/" ++ vmId ++ "/connectionStatus"],
    handleResponse (server 0)⟩

/-- `requestSpringData`: one POST to the spring-data refresh endpoint. -/
def requestSpringData (baseUrl storeId vmId : String)
    (server : ℕ → HttpResp Bool) : WrapperRun Bool :=
  ⟨[baseUrl ++ "/api/v1/stores/" ++ storeId ++ "/vms/" ++ vmId ++ "/requestSpringData"],
    handleResponse (server 0)⟩

/-- Razorpay order payload used by `createRazorpayOrder`. -/
structure RazorpayOrderResponse where
  razorpay_order_id : String
  amount : ℚ
  currency : String
  order_number : String
  deriving DecidableEq

/-- `createRazorpayOrder`: one POST to the order's razorpay endpoint. -/
def createRazorpayOrder (baseUrl orderId : String)
    (server : ℕ → HttpResp RazorpayOrderResponse) : WrapperRun RazorpayOrderResponse :=
  ⟨[baseUrl ++ "/api/v1/orders/" ++ orderId ++ "/razorpay"], handleResponse (server 0)⟩

/-- `verifyPayment`: one POST to the payment verification endpoint. -/
def verifyPayment (baseUrl : String)
    (server : ℕ → HttpResp BackendOrder) : WrapperRun BackendOrder :=
  ⟨[baseUrl ++ "/api/v1/payments/verify"], handleResponse (server 0)⟩

/-- Dispense calls among run-trace events. -/
def isDispenseEv : REv → Bool
  | .dispenseEv _ _ _ _ => true
  | _ => false

/-- Number of `dispenseProduct` calls in a trace. -/
def dispCount (tr : List REv) : ℕ := (tr.filter isDispenseEv).length

/-- Total unit count of a backend item list. -/
def sumQ (bits : List BackendItem) : ℕ := (bits.map (fun b => b.quantity)).sum

/-- Total unit count of the order-items fetch of a run environment. -/
def totalQtyOf (env : DispEnv) : ℕ :=
  match env.getOrderRes 1 with
  | .ok bo => sumQ (bo.items.getD [])
  | .err _ => 0

/-- A demo auth configuration (witnesses). -/
def demoAuthCfg : AuthCfg :=
  ⟨"https://vm.example", "client-12345", "secret-12345", none,
    .http true 200 (some ⟨"h.p.s", "r", "bearer", "2099-01-01", "proj"⟩)⟩

/-- A failing HTTP response (witnesses). -/
def demoFailResp : HttpResp DispenseResponse :=
  ⟨false, 500, "oops", some ⟨some "boom", none⟩, none⟩

/-- Dispense-issuing calls (`initiateDispense` and `dispenseProduct`). -/
def isDispCall : REv → Bool
  | .initiateEv _ => true
  | .dispenseEv _ _ _ _ => true
  | _ => false

/-- A demo payment environment (witnesses). -/
def demoPayEnv : PayEnv :=
  ⟨.ok ⟨true, true, none, none⟩, .ok ⟨"o1", "42"⟩, .ok ⟨"rz1", 1000, "SEK", "42"⟩,
    some "rzp_key_123"⟩

/-- The status and error message the k-th unit's status update reports,
as determined by the k-th `dispenseProduct` outcome. -/
def unitStatusOf (env : DispEnv) (k : ℕ) : DStat × Option String :=
  match env.dispenseRes k with
  | .ok r => if r.success then (.success, none) else (.failed, some (orStr r.message "Dispense failed"))
  | .err m => (.failed, some m)

/-- The unit context of a backend item whose merged product comes from the
matching cart product (the only way the field guard can pass). -/
def unitCtxFor (sid oid : String) (cart : List CartItem) (bi : BackendItem) : UnitCtx :=
  unitCtxOf sid oid bi
    (mergeProduct bi none ((cart.find? (fun ci => ci.product.id = bi.spring_id)).map
      (fun ci => ci.product)))

/-- The two calls of one unit when status updates succeed: a dispense call
followed by one status update reporting success or failure. -/
def unitBlock (c : UnitCtx) (env : DispEnv) (k : ℕ) : List REv :=
  [REv.dispenseEv c.pStoreId c.vmId c.springId c.itemId,
    REv.updateEv c.oid (some c.itemId) (unitStatusOf env k).1 (unitStatusOf env k).2]

/-- The calls of one item: quantity-many unit blocks. -/
def itemBlocks (sid oid : String) (cart : List CartItem) (env : DispEnv) (dStart : ℕ)
    (bi : BackendItem) : List REv :=
  (List.range bi.quantity).flatMap (fun j => unitBlock (unitCtxFor sid oid cart bi) env (dStart + j))

/-- The calls of the whole item loop, in item order. -/
def allBlocks (sid oid : String) (cart : List CartItem) (env : DispEnv) :
    List BackendItem → ℕ → List REv
  | [], _ => []
  | bi :: rest, dStart =>
    itemBlocks sid oid cart env dStart bi ++ allBlocks sid oid cart env rest (dStart + bi.quantity)

/-- The field guard of the dispense loop: the merged product has a truthy
selection number, VM id and store id (which requires a matching cart
product). -/
def itemGuard (cart : List CartItem) (bi : BackendItem) : Prop :=
  mselTruthy (mergeProduct bi none ((cart.find? (fun ci => ci.product.id = bi.spring_id)).map
      (fun ci => ci.product))).sel = true ∧
  strTruthy (mergeProduct bi none ((cart.find? (fun ci => ci.product.id = bi.spring_id)).map
      (fun ci => ci.product))).vmId = true ∧
  strTruthy (mergeProduct bi none ((cart.find? (fun ci => ci.product.id = bi.spring_id)).map
      (fun ci => ci.product))).storeId = true

/-- Refund-step calls (`createRefund` and `processRefund`). -/
def isRefundCall : REv → Bool
  | .createRefundEv _ _ => true
  | .processRefundEv _ => true
  | _ => false

/-- `initiateDispense` calls in a trace. -/
def isInitiateEv : REv → Bool
  | .initiateEv _ => true
  | _ => false

/-- `completeDispense` calls in a trace. -/
def isCompleteEv : REv → Bool
  | .completeEv _ => true
  | _ => false

/-- Number of `createRefund` calls in a trace. -/
def createRefundCount (tr : List REv) : ℕ :=
  (tr.filter (fun e => match e with | .createRefundEv _ _ => true | _ => false)).length

/-- Sum of the `total_price` fields of refund entries. -/
def refundSum (frs : List RefundItemReq) : ℚ :=
  (frs.map (fun i => i.total_price)).sum

/-- Total number of refund entries the audited units account for. -/
def auditCount (audits : List UnitAudit) : ℕ :=
  (audits.map unitRefundCount).sum

/-- Total refund amount the audited units account for: each unit contributes
its refund-entry count times its effective unit price. -/
def auditSum (audits : List UnitAudit) : ℚ :=
  (audits.map (fun u => (unitRefundCount u : ℚ) * u.price)).sum

/-- A demo dispensing page state (witnesses): one paid item in the cart and
order. -/
def demoPageSt : PageSt := ⟨some "s1", some demoOrder, [⟨demoProduct, 1⟩]⟩

/-- A demo environment whose payment check reports an unpaid order. -/
def demoUnpaidEnv : DispEnv :=
  { getOrderRes := fun _ => .ok ⟨false, "pending", some []⟩
    initiateRes := .ok ()
    dispenseRes := fun _ => .ok ⟨true, none⟩
    updateRes := fun _ => .ok ()
    completeRes := .ok ⟨true, "completed", none⟩
    createRefundRes := .ok ⟨"r1", "RN1"⟩
    processRefundRes := .ok () }

/-- A demo backend order item matching the demo cart product. -/
def demoBItem : BackendItem := ⟨some "it1", "sp1", "Cola", 10, 2, 25, "5"⟩

/-- A demo paid backend order. -/
def demoPaidOrder : BackendOrder := ⟨true, "paid", some [demoBItem]⟩

/-- A demo environment in which every call succeeds. -/
def demoPaidEnv : DispEnv :=
  { getOrderRes := fun _ => .ok demoPaidOrder
    initiateRes := .ok ()
    dispenseRes := fun _ => .ok ⟨true, none⟩
    updateRes := fun _ => .ok ()
    completeRes := .ok ⟨true, "completed", some [demoBItem]⟩
    createRefundRes := .ok ⟨"r1", "RN1"⟩
    processRefundRes := .ok () }

/-- A demo environment in which every dispense succeeds but the first status
update throws. -/
def demoUpdThrowEnv : DispEnv :=
  { demoPaidEnv with updateRes := fun k => if k = 0 then .err "network error" else .ok () }

/-- The bookkeeping invariant of the item loop: no refund call has been
issued, and the refund entries are exactly accounted for by the unit audit
(in count and in amount). -/
def LoopInv (acc : LoopAcc) : Prop :=
  (∀ e ∈ acc.evs, isRefundCall e = false) ∧
  acc.frs.length = auditCount acc.audits ∧
  refundSum acc.frs = auditSum acc.audits

/-! ## Theorems -/

/-- Springs whose `linked_product` parses map to a product. -/
lemma springToProduct_isSome_of_linked (s : Spring) (h : (linkedData s).isSome) :
    (springToProduct s).isSome := by
  unfold linkedData at h
  unfold springToProduct
  cases hlp : s.linked_product with
  | none => simp [hlp] at h
  | some lp =>
    cases lp with
    | jobj d => simp
    | jstr p =>
      cases p with
      | none => simp [hlp] at h
      | some d => simp

/-- `springToProduct` is `none` exactly when the linked-product data is
missing or unparseable. -/
lemma springToProduct_none_iff (s : Spring) :
    springToProduct s = none ↔ linkedData s = none := by
  unfold springToProduct linkedData
  cases s.linked_product with
  | none => simp
  | some lp =>
    cases lp with
    | jobj d => simp
    | jstr p => cases p <;> simp

/-- Pull a filter into a `filterMap`. -/
lemma filterMap_filter_eq {A B : Type} (p : A → Bool) (f : A → Option B) (l : List A) :
    (l.filter p).filterMap f = l.filterMap (fun x => if p x then f x else none) := by
  induction l with
  | nil => rfl
  | cons a l ih =>
    by_cases h : p a = true
    · simp [List.filter_cons, h, List.filterMap_cons, ih]
    · simp [List.filter_cons, h, List.filterMap_cons, ih]

/-- Filtering by availability then dropping unparseable springs is the same
as filtering by the combined availability-and-parseability predicate. -/
lemma filterAvailable_filterMap_eq (springs : List Spring) :
    (filterAvailableSprings springs).filterMap springToProduct
      = (springs.filter shownSpring).filterMap springToProduct := by
  unfold filterAvailableSprings
  rw [filterMap_filter_eq, filterMap_filter_eq]
  apply List.filterMap_congr
  intro s _
  unfold availableSpring shownSpring
  cases hlp : s.linked_product with
  | none => simp [linkedData, hlp]
  | some lp =>
    cases lp with
    | jobj d => simp [linkedData, hlp]
    | jstr q =>
      cases q with
      | some d => simp [linkedData, hlp]
      | none =>
        have h0 : springToProduct s = none :=
          (springToProduct_none_iff s).mpr (by simp [linkedData, hlp])
        simp [linkedData, hlp, h0]

/-- C6.  The product-mapping adapter flattens spring records exactly as the
spec says: the products shown are exactly the springs with parseable
`linked_product`, positive inventory and a non-broken, non-maintenance
status, mapped in input order by `springToProduct`; `springToProduct`
returns `none` exactly for missing/unparseable `linked_product`, and the
mapped product copies id, selection number, inventory, VM id and store id
from the spring, takes its name from `title` falling back to `name` then
`Product {selection_number}`, and defaults price and tax rate to 0. -/
theorem c6_product_mapping (springs : List Spring) :
    productsShown springs = (springs.filter shownSpring).filterMap springToProduct
    ∧ (∀ s : Spring, shownSpring s = true → (springToProduct s).isSome)
    ∧ (∀ s : Spring, springToProduct s = none ↔ linkedData s = none)
    ∧ (∀ (s : Spring) (p : Product), springToProduct s = some p →
        p.id = s.id ∧ p.selectionNumber = parseIntJS s.selection_number ∧
        p.inventory = some s.inventory ∧ p.vmId = some s.vm_id ∧ p.storeId = some s.store_id ∧
        ∃ pd, linkedData s = some pd ∧
          p.name = orStr pd.title (orStr pd.name ("Product " ++ s.selection_number)) ∧
          p.price = orNum pd.price 0 ∧
          p.taxRate = orNum pd.tax_rate (orNum pd.taxRateAlt 0)) := by
  refine ⟨?_, ?_, ?_, ?_⟩
  · unfold productsShown mapSpringsToProducts
    exact filterAvailable_filterMap_eq springs
  · intro s h
    apply springToProduct_isSome_of_linked
    unfold shownSpring at h
    simp only [Bool.and_assoc, Bool.and_eq_true] at h
    exact h.1
  · exact springToProduct_none_iff
  · intro s p hp
    unfold springToProduct at hp
    cases hlp : s.linked_product with
    | none => simp [hlp] at hp
    | some lp =>
      cases lp with
      | jobj d =>
        simp only [hlp, Option.some.injEq] at hp
        subst hp
        exact ⟨rfl, rfl, rfl, rfl, rfl, d, by simp [linkedData, hlp], rfl, rfl, rfl⟩
      | jstr q =>
        cases q with
        | none => simp [hlp] at hp
        | some d =>
          simp only [hlp, Option.some.injEq] at hp
          subst hp
          exact ⟨rfl, rfl, rfl, rfl, rfl, d, by simp [linkedData, hlp], rfl, rfl, rfl⟩

/-- C6 witness: the theorem evaluated on a concrete spring list. -/
theorem c6_witness :
    productsShown demoSprings = (demoSprings.filter shownSpring).filterMap springToProduct ∧
      (springToProduct demoSpring1).isSome :=
  ⟨(c6_product_mapping demoSprings).1,
    (c6_product_mapping demoSprings).2.1 demoSpring1 (by decide)⟩

lemma totalFor_append (gs1 gs2 : List (ℚ × ℚ)) (r : ℚ) :
    totalFor (gs1 ++ gs2) r = totalFor gs1 r + totalFor gs2 r := by
  induction gs1 with
  | nil => simp [totalFor]
  | cons g gs ih => simp [totalFor, ih]; ring

lemma totalFor_eq_zero_of_not_mem (gs : List (ℚ × ℚ)) (r : ℚ) (h : r ∉ gKeys gs) :
    totalFor gs r = 0 := by
  induction gs with
  | nil => rfl
  | cons g gs ih =>
    simp only [gKeys, List.map_cons, List.mem_cons, not_or] at h
    simp [totalFor, Ne.symm h.1, ih h.2, gKeys]

lemma gKeys_addToGroups (gs : List (ℚ × ℚ)) (i : FrontItem) :
    gKeys (addToGroups gs i)
      = if i.taxRate ∈ gKeys gs then gKeys gs else gKeys gs ++ [i.taxRate] := by
  unfold addToGroups
  by_cases h : ∃ g ∈ gs, g.1 = i.taxRate
  · have hmem : i.taxRate ∈ gs.map Prod.fst := by
      obtain ⟨g, hg, he⟩ := h
      exact he ▸ List.mem_map_of_mem Prod.fst hg
    have hany : gs.any (fun g => g.1 = i.taxRate) = true := by
      simp only [List.any_eq_true, decide_eq_true_eq]
      exact h
    simp only [hany, ite_true, gKeys, List.map_map, if_pos hmem]
    apply List.map_congr_left
    intro g _
    by_cases hg : g.1 = i.taxRate <;> simp [hg]
  · have hmem : i.taxRate ∉ gs.map Prod.fst := by
      intro hc
      obtain ⟨g, hg, he⟩ := List.mem_map.mp hc
      exact h ⟨g, hg, he⟩
    have hany : gs.any (fun g => g.1 = i.taxRate) = false := by
      simp only [List.any_eq_false, decide_eq_true_eq]
      intro g hg he
      exact h ⟨g, hg, he⟩
    simp [hany, gKeys, if_neg hmem]

lemma gKeys_nodup_addToGroups (gs : List (ℚ × ℚ)) (i : FrontItem)
    (h : (gKeys gs).Nodup) : (gKeys (addToGroups gs i)).Nodup := by
  rw [gKeys_addToGroups]
  by_cases hmem : i.taxRate ∈ gKeys gs
  · simpa [hmem] using h
  · simp only [hmem, ite_false]
    simpa [List.nodup_append, hmem] using h

lemma totalFor_update (gs : List (ℚ × ℚ)) (key v r : ℚ) (h : (gKeys gs).Nodup)
    (hmem : key ∈ gKeys gs) :
    totalFor (gs.map (fun g => if g.1 = key then (g.1, g.2 + v) else g)) r
      = totalFor gs r + (if key = r then v else 0) := by
  induction gs with
  | nil => simp [gKeys] at hmem
  | cons g gs ih =>
    simp only [gKeys, List.map_cons, List.nodup_cons] at h
    by_cases hg : g.1 = key
    · have hnot : key ∉ gs.map Prod.fst := hg ▸ h.1
      have hid : gs.map (fun x => if x.1 = key then (x.1, x.2 + v) else x) = gs := by
        have hpt : ∀ x ∈ gs, (if x.1 = key then (x.1, x.2 + v) else x) = id x := by
          intro x hx
          have hne : x.1 ≠ key := fun he => hnot (he ▸ List.mem_map_of_mem Prod.fst hx)
          simp [hne]
        rw [List.map_congr_left hpt, List.map_id]
      simp only [List.map_cons, hid, if_pos hg, totalFor]
      subst hg
      by_cases hr : g.1 = r <;> simp [hr] <;> ring
    · have hmem2 : key ∈ gs.map Prod.fst := by
        rcases List.mem_cons.mp hmem with hc | hc
        · exact absurd hc.symm hg
        · exact hc
      simp only [List.map_cons, if_neg hg, totalFor, ih h.2 hmem2]
      ring

lemma totalFor_addToGroups (gs : List (ℚ × ℚ)) (i : FrontItem) (r : ℚ)
    (h : (gKeys gs).Nodup) :
    totalFor (addToGroups gs i) r
      = totalFor gs r + (if i.taxRate = r then i.price * i.quantity else 0) := by
  unfold addToGroups
  by_cases hany : gs.any (fun g => g.1 = i.taxRate) = true
  · have hmem : i.taxRate ∈ gKeys gs := by
      simp only [List.any_eq_true, decide_eq_true_eq] at hany
      obtain ⟨g, hg, he⟩ := hany
      exact he ▸ List.mem_map_of_mem Prod.fst hg
    simp only [hany, ite_true]
    exact totalFor_update gs i.taxRate (i.price * i.quantity) r h hmem
  · simp only [Bool.not_eq_true] at hany
    simp [hany, totalFor_append, totalFor]

lemma totalFor_foldl (items : List FrontItem) (r : ℚ) :
    ∀ gs : List (ℚ × ℚ), (gKeys gs).Nodup →
      totalFor (items.foldl addToGroups gs) r = totalFor gs r + sumFor items r := by
  induction items with
  | nil => intro gs _; simp [sumFor]
  | cons i is ih =>
    intro gs h
    simp only [List.foldl_cons, sumFor]
    rw [ih (addToGroups gs i) (gKeys_nodup_addToGroups gs i h), totalFor_addToGroups gs i r h]
    ring

lemma taxGroups_keys_nodup (items : List FrontItem) :
    ∀ gs : List (ℚ × ℚ), (gKeys gs).Nodup → (gKeys (items.foldl addToGroups gs)).Nodup := by
  induction items with
  | nil => intro gs h; exact h
  | cons i is ih => intro gs h; exact ih _ (gKeys_nodup_addToGroups gs i h)

lemma mem_totalFor (gs : List (ℚ × ℚ)) (h : (gKeys gs).Nodup) :
    ∀ g ∈ gs, g.2 = totalFor gs g.1 := by
  induction gs with
  | nil => intro g hg; simp at hg
  | cons a gs ih =>
    simp only [gKeys, List.map_cons, List.nodup_cons] at h
    intro g hg
    rcases List.mem_cons.mp hg with hc | hc
    · subst hc
      have : totalFor gs g.1 = 0 :=
        totalFor_eq_zero_of_not_mem gs g.1 h.1
      simp [totalFor, this]
    · have hne : a.1 ≠ g.1 :=
        fun he => h.1 (he ▸ List.mem_map_of_mem Prod.fst hc)
      simp [totalFor, hne, ih h.2 g hc]

lemma mem_addToGroups (gs : List (ℚ × ℚ)) (i : FrontItem) (g : ℚ × ℚ)
    (h : g ∈ addToGroups gs i) : g.1 ∈ gKeys gs ∨ g.1 = i.taxRate := by
  unfold addToGroups at h
  by_cases hany : gs.any (fun x => x.1 = i.taxRate) = true
  · simp only [hany, ite_true] at h
    obtain ⟨g0, hg0, he⟩ := List.mem_map.mp h
    left
    have hfst : g.1 = g0.1 := by
      by_cases hx : g0.1 = i.taxRate
      · rw [if_pos hx] at he
        rw [← he]
      · rw [if_neg hx] at he
        rw [← he]
    exact hfst ▸ List.mem_map_of_mem Prod.fst hg0
  · simp only [Bool.not_eq_true] at hany
    simp only [hany, Bool.false_eq_true, if_false, List.mem_append, List.mem_singleton] at h
    rcases h with hc | hc
    · exact Or.inl (List.mem_map_of_mem Prod.fst hc)
    · exact Or.inr (by simp [hc])

lemma mem_rate_of_mem_taxGroups (items : List FrontItem) (g : ℚ × ℚ)
    (h : g ∈ taxGroups items) : g.1 ∈ items.map (fun i => i.taxRate) := by
  suffices haux : ∀ gs : List (ℚ × ℚ), g ∈ items.foldl addToGroups gs →
      g.1 ∈ gKeys gs ∨ g.1 ∈ items.map (fun i => i.taxRate) by
    rcases haux [] h with hc | hc
    · simp [gKeys] at hc
    · exact hc
  clear h
  induction items with
  | nil => intro gs h; exact Or.inl (List.mem_map_of_mem Prod.fst h)
  | cons i is ih =>
    intro gs h
    rcases ih (addToGroups gs i) h with hc | hc
    · rw [gKeys_addToGroups] at hc
      by_cases hmem : i.taxRate ∈ gKeys gs
      · exact Or.inl (by simpa [hmem] using hc)
      · simp only [hmem, ite_false, List.mem_append, List.mem_singleton] at hc
        rcases hc with h3 | h3
        · exact Or.inl h3
        · exact Or.inr (by simp [h3])
    · exact Or.inr (by simp [hc])

lemma taxInclusive_algebra (t r : ℚ) (h : 0 ≤ r) :
    (t - t * (r / (100 + r))) * (1 + r / 100) = t := by
  have h1 : (100 : ℚ) + r ≠ 0 := by positivity
  field_simp
  ring

lemma pant_foldl (items : List FrontItem) :
    ∀ a : ℚ, items.foldl (fun sum i => sum + orNum i.depositAmount 0 * i.quantity) a
      = a + (items.map (fun i => orNum i.depositAmount 0 * (i.quantity : ℚ))).sum := by
  induction items with
  | nil => intro a; simp
  | cons i is ih =>
    intro a
    simp only [List.foldl_cons, List.map_cons, List.sum_cons, ih]
    ring

lemma pant_filter_eq (items : List FrontItem) :
    ((items.filter (fun i => i.depositAmount.isSome)).map
        (fun i => i.depositAmount.getD 0 * (i.quantity : ℚ))).sum
      = (items.map (fun i => orNum i.depositAmount 0 * (i.quantity : ℚ))).sum := by
  induction items with
  | nil => rfl
  | cons i is ih =>
    cases hd : i.depositAmount with
    | none =>
      simp only [List.filter_cons, hd, Option.isSome_none, Bool.false_eq_true, if_false,
        List.map_cons, List.sum_cons, ih, orNum]
      ring
    | some d =>
      by_cases hz : d = 0
      · simp [List.filter_cons, hd, List.map_cons, ih, orNum, hz]
      · simp [List.filter_cons, hd, List.map_cons, ih, orNum, hz]

/-- C9.  The receipt's tax breakdown is exact (rational) tax-inclusive
arithmetic: every row's `includingTax` is the sum of `price * quantity` over
the items of its rate, `taxAmount = includingTax * rate / (100 + rate)`,
`excludingTax = includingTax - taxAmount`, hence
`excludingTax * (1 + rate/100) = includingTax`; and the pant line is the sum
of `depositAmount * quantity` over the items that have a deposit. -/
theorem c9_receipt_tax (items : List FrontItem) (h : ∀ i ∈ items, 0 ≤ i.taxRate) :
    (∀ tb ∈ taxBreakdowns items,
      tb.includingTax = sumFor items tb.taxRate ∧
      tb.taxAmount = tb.includingTax * (tb.taxRate / (100 + tb.taxRate)) ∧
      tb.excludingTax = tb.includingTax - tb.taxAmount ∧
      tb.excludingTax * (1 + tb.taxRate / 100) = tb.includingTax) ∧
    pantTotal items
      = ((items.filter (fun i => i.depositAmount.isSome)).map
          (fun i => i.depositAmount.getD 0 * (i.quantity : ℚ))).sum := by
  constructor
  · intro tb htb
    unfold taxBreakdowns at htb
    obtain ⟨g, hg, he⟩ := List.mem_map.mp htb
    have hnodup : (gKeys (taxGroups items)).Nodup :=
      taxGroups_keys_nodup items [] (by simp [gKeys])
    have htot : g.2 = totalFor (taxGroups items) g.1 :=
      mem_totalFor (taxGroups items) hnodup g hg
    have hsum : totalFor (taxGroups items) g.1 = sumFor items g.1 := by
      have := totalFor_foldl items g.1 [] (by simp [gKeys])
      simpa [taxGroups, totalFor] using this
    have hrate : 0 ≤ g.1 := by
      have hmem := mem_rate_of_mem_taxGroups items g hg
      obtain ⟨i, hi, he2⟩ := List.mem_map.mp hmem
      exact he2 ▸ h i hi
    subst he
    refine ⟨by simpa using htot.trans hsum, rfl, rfl, ?_⟩
    simpa using taxInclusive_algebra g.2 g.1 hrate
  · rw [pant_filter_eq]
    unfold pantTotal
    simpa using pant_foldl items 0

/-- C9 witness: the theorem evaluated on a concrete order. -/
theorem c9_witness :
    pantTotal demoItems
      = ((demoItems.filter (fun i => i.depositAmount.isSome)).map
          (fun i => i.depositAmount.getD 0 * (i.quantity : ℚ))).sum :=
  (c9_receipt_tax demoItems (by decide)).2

lemma partialize_applyAppOp_transient (s : AppState) (op : AppOp)
    (h : transientAppOp op = true) : partialize (applyAppOp s op) = partialize s := by
  cases op <;> simp_all [transientAppOp, applyAppOp, partialize]

/-- C5 counterexample.  `storeCredentials` (in `lib/api/auth.ts`, reachable
from the products page when credentials arrive via URL parameters) writes the
client credentials to local storage under `vm-service-credentials` — a key
other than the app-store and cart keys — so modules other than the two
persisted stores do write application data to local storage. -/
theorem c5_counterexample :
    storeCredentials "client-1" "secret-1" 0
        = [("vm-service-credentials", ⟨"client-1", "secret-1", 0⟩)] ∧
      CREDENTIALS_STORAGE_KEY ≠ APP_STORAGE_KEY ∧
      CREDENTIALS_STORAGE_KEY ≠ CART_STORAGE_KEY := by
  refine ⟨rfl, ?_, ?_⟩ <;> decide

/-- C5 (amended).  The app store's `partialize` writes exactly `storeId` and
`ageVerification`; no sequence of transient store operations
(`setCurrentOrder`, `setSelectedPaymentMethod`, `setIsLoading`,
`setIsDispensing`, `setDispensedCount`) changes what is persisted; and the
auth module additionally writes exactly the stored client credentials under
its own key. -/
theorem c5_persistence :
    (∀ s : AppState, partialize s = ⟨s.storeId, s.ageVerification⟩) ∧
    (∀ s₁ s₂ : AppState, s₁.storeId = s₂.storeId → s₁.ageVerification = s₂.ageVerification →
      partialize s₁ = partialize s₂) ∧
    (∀ (s : AppState) (ops : List AppOp), (∀ op ∈ ops, transientAppOp op = true) →
      partialize (applyAppOps s ops) = partialize s) ∧
    (∀ (cid cs : String) (now : ℕ),
      storeCredentials cid cs now = [(CREDENTIALS_STORAGE_KEY, ⟨cid, cs, now⟩)]) := by
  refine ⟨fun s => rfl, fun s₁ s₂ h1 h2 => by simp [partialize, h1, h2], ?_, fun _ _ _ => rfl⟩
  intro s ops
  induction ops generalizing s with
  | nil => intro _; rfl
  | cons op rest ih =>
    intro h
    have h1 := h op (List.mem_cons_self op rest)
    have h2 : ∀ o ∈ rest, transientAppOp o = true :=
      fun o ho => h o (List.mem_cons_of_mem op ho)
    calc partialize (applyAppOps s (op :: rest))
        = partialize (applyAppOps (applyAppOp s op) rest) := rfl
      _ = partialize (applyAppOp s op) := ih (applyAppOp s op) h2
      _ = partialize s := partialize_applyAppOp_transient s op h1

/-- C5 witness: transient operations leave the persisted projection of the
initial app state unchanged. -/
theorem c5_witness :
    partialize (applyAppOps appInitial
        [.setIsLoading true, .setCurrentOrder (some demoOrder), .setDispensedCount 3])
      = partialize appInitial :=
  c5_persistence.2.2.1 appInitial
    [.setIsLoading true, .setCurrentOrder (some demoOrder), .setDispensedCount 3]
    (by intro op hop; fin_cases hop <;> rfl)

lemma updateQuantity_inv (s : CartState) (pid : String) (q : ℤ)
    (h : ∀ it ∈ s.items, 0 < it.quantity) :
    ∀ it ∈ (updateQuantity s pid q).items, 0 < it.quantity := by
  unfold updateQuantity
  by_cases hq : q ≤ 0
  · simp only [hq, ite_true]
    intro it hit
    exact h it (List.mem_of_mem_filter hit)
  · simp only [hq, ite_false]
    intro it hit
    obtain ⟨it0, hit0, he⟩ := List.mem_map.mp hit
    by_cases hid : it0.product.id = pid
    · rw [if_pos hid] at he
      rw [← he]
      simp only []
      omega
    · rw [if_neg hid] at he
      exact he ▸ h it0 hit0

lemma addItem_inv (s : CartState) (p : Product)
    (h : ∀ it ∈ s.items, 0 < it.quantity) :
    ∀ it ∈ (addItem s p).items, 0 < it.quantity := by
  unfold addItem
  by_cases hc : s.items.any (fun it => it.product.id = p.id) = true
  · simp only [hc, ite_true]
    intro it hit
    obtain ⟨it0, hit0, he⟩ := List.mem_map.mp hit
    by_cases hid : it0.product.id = p.id
    · rw [if_pos hid] at he
      rw [← he]
      simp only []
      omega
    · rw [if_neg hid] at he
      exact he ▸ h it0 hit0
  · simp only [hc]
    intro it hit
    rcases List.mem_append.mp hit with hm | hm
    · exact h it hm
    · simp only [List.mem_singleton] at hm
      rw [hm]
      exact Nat.one_pos

lemma applyCartOp_inv (s : CartState) (op : CartOp)
    (h : ∀ it ∈ s.items, 0 < it.quantity) :
    ∀ it ∈ (applyCartOp s op).items, 0 < it.quantity := by
  cases op with
  | pcInc p =>
    simp only [applyCartOp, pcIncrement]
    split
    · exact addItem_inv s p h
    · exact updateQuantity_inv s p.id _ h
  | pcDec p =>
    simp only [applyCartOp, pcDecrement]
    split
    · exact updateQuantity_inv s p.id _ h
    · exact h
  | ciInc pid =>
    simp only [applyCartOp, ciIncrement]
    split
    · exact updateQuantity_inv s pid _ h
    · exact h
  | ciDec pid =>
    simp only [applyCartOp, ciDecrement]
    split
    · split
      · exact updateQuantity_inv s pid _ h
      · exact h
    · exact h
  | remove pid =>
    intro it hit
    exact h it (List.mem_of_mem_filter hit)
  | clear =>
    intro it hit
    simp [applyCartOp, clearCart] at hit

/-- C7.  Every cart line reachable through the UI operations has positive
quantity; the product card's decrement is a no-op at quantity 0 and the cart
row's decrement is a no-op at quantity 1, so no reachable cart state holds a
line with quantity 0 or less. -/
theorem c7_cart_quantities :
    (∀ ops : List CartOp, ∀ it ∈ (applyCartOps cartInitial ops).items, 0 < it.quantity) ∧
    (∀ (s : CartState) (p : Product), cartQty s p.id = 0 → pcDecrement s p = s) ∧
    (∀ (s : CartState) (pid : String) (it : CartItem),
      s.items.find? (fun x => x.product.id = pid) = some it → it.quantity ≤ 1 →
      ciDecrement s pid = s) := by
  refine ⟨?_, ?_, ?_⟩
  · intro ops
    suffices haux : ∀ (s : CartState), (∀ it ∈ s.items, 0 < it.quantity) →
        ∀ it ∈ (applyCartOps s ops).items, 0 < it.quantity by
      exact haux cartInitial (by intro it hit; simp [cartInitial] at hit)
    induction ops with
    | nil => intro s h; exact h
    | cons op rest ih =>
      intro s h
      exact ih (applyCartOp s op) (applyCartOp_inv s op h)
  · intro s p h
    simp [pcDecrement, h]
  · intro s pid it hfind hle
    simp [ciDecrement, hfind, Nat.not_lt.mpr hle, Nat.lt_irrefl]

/-- C7 witness: after one product-card increment from the empty cart the
single line has positive quantity. -/
theorem c7_witness :
    0 < (⟨demoProduct, 1⟩ : CartItem).quantity :=
  c7_cart_quantities.1 [.pcInc demoProduct] ⟨demoProduct, 1⟩ (by decide)

lemma resolveCredentials_evs (cfg : AuthCfg) (cid cs : Option String) :
    (resolveCredentials cfg cid cs).1 = [] ∨
      (resolveCredentials cfg cid cs).1 = [.readLS CREDENTIALS_STORAGE_KEY] := by
  unfold resolveCredentials
  dsimp only
  by_cases h : strTruthy (resolveStep1 cfg cid cs).1 = true ∧
      strTruthy (resolveStep1 cfg cid cs).2 = true
  · rw [if_pos h]
    exact Or.inl rfl
  · rw [if_neg h]
    rcases cfg.storedCreds with _ | ⟨sc1, sc2⟩
    · exact Or.inr rfl
    · exact Or.inr rfl

lemma getAccessToken_evs (cfg : AuthCfg) (cid cs : Option String) :
    (getAccessToken cfg cid cs).1 = (resolveCredentials cfg cid cs).1 ∨
      (getAccessToken cfg cid cs).1
        = (resolveCredentials cfg cid cs).1
            ++ [.fetchPOST (cfg.vmServiceUrl ++ "/api/v1/token")] := by
  unfold getAccessToken
  dsimp only
  by_cases h1 : ¬ (strTruthy (resolveCredentials cfg cid cs).2.1 = true ∧
      strTruthy (resolveCredentials cfg cid cs).2.2 = true)
  · rw [if_pos h1]
    exact Or.inl rfl
  · rw [if_neg h1]
    by_cases h2 : cfg.vmServiceUrl = ""
    · rw [if_pos h2]
      exact Or.inl rfl
    · rw [if_neg h2]
      exact Or.inr rfl

lemma getAccessToken_evs_of_configured (cfg : AuthCfg) (cid cs : Option String)
    (h1 : strTruthy (resolveCredentials cfg cid cs).2.1 = true)
    (h2 : strTruthy (resolveCredentials cfg cid cs).2.2 = true)
    (h3 : cfg.vmServiceUrl ≠ "") :
    (getAccessToken cfg cid cs).1
      = (resolveCredentials cfg cid cs).1
          ++ [.fetchPOST (cfg.vmServiceUrl ++ "/api/v1/token")] := by
  unfold getAccessToken
  dsimp only
  rw [if_neg (by simp [h1, h2]), if_neg h3]

/-- C10.  `getAccessToken` never writes to local storage and never reads the
stored-token key; whenever the resolved credentials and service URL are
configured it performs exactly one POST of the token endpoint;
`getCurrentAccessToken` simply delegates to it; `getStoredProjectId` is
always `null`; hence two successive API wrapper calls perform two token
fetches. -/
theorem c10_fresh_token :
    (∀ (cfg : AuthCfg) (cid cs : Option String) (k : String),
      AuthEv.writeLS k ∉ (getAccessToken cfg cid cs).1) ∧
    (∀ (cfg : AuthCfg) (cid cs : Option String),
      AuthEv.readLS TOKEN_STORAGE_KEY ∉ (getAccessToken cfg cid cs).1) ∧
    (∀ (cfg : AuthCfg) (cid cs : Option String),
      strTruthy (resolveCredentials cfg cid cs).2.1 = true →
      strTruthy (resolveCredentials cfg cid cs).2.2 = true →
      cfg.vmServiceUrl ≠ "" →
      ((getAccessToken cfg cid cs).1.filter isFetchEv).length = 1 ∧
        AuthEv.fetchPOST (cfg.vmServiceUrl ++ "/api/v1/token")
          ∈ (getAccessToken cfg cid cs).1) ∧
    (∀ (cfg : AuthCfg) (cid cs : Option String),
      getCurrentAccessToken cfg cid cs = getAccessToken cfg cid cs) ∧
    getStoredProjectId = none ∧
    (∀ cfg : AuthCfg,
      strTruthy (resolveCredentials cfg none none).2.1 = true →
      strTruthy (resolveCredentials cfg none none).2.2 = true →
      cfg.vmServiceUrl ≠ "" →
      ((twoTokenAcquisitions cfg).filter isFetchEv).length = 2) := by
  have hwrite : ∀ (cfg : AuthCfg) (cid cs : Option String) (k : String),
      AuthEv.writeLS k ∉ (getAccessToken cfg cid cs).1 := by
    intro cfg cid cs k hmem
    rcases getAccessToken_evs cfg cid cs with he | he <;>
      rcases resolveCredentials_evs cfg cid cs with hr | hr <;>
      simp [he, hr] at hmem
  have hread : ∀ (cfg : AuthCfg) (cid cs : Option String),
      AuthEv.readLS TOKEN_STORAGE_KEY ∉ (getAccessToken cfg cid cs).1 := by
    intro cfg cid cs hmem
    rcases getAccessToken_evs cfg cid cs with he | he <;>
      rcases resolveCredentials_evs cfg cid cs with hr | hr <;>
      simp [he, hr, TOKEN_STORAGE_KEY, CREDENTIALS_STORAGE_KEY] at hmem
  have hone : ∀ (cfg : AuthCfg) (cid cs : Option String),
      strTruthy (resolveCredentials cfg cid cs).2.1 = true →
      strTruthy (resolveCredentials cfg cid cs).2.2 = true →
      cfg.vmServiceUrl ≠ "" →
      ((getAccessToken cfg cid cs).1.filter isFetchEv).length = 1 ∧
        AuthEv.fetchPOST (cfg.vmServiceUrl ++ "/api/v1/token")
          ∈ (getAccessToken cfg cid cs).1 := by
    intro cfg cid cs h1 h2 h3
    rw [getAccessToken_evs_of_configured cfg cid cs h1 h2 h3]
    rcases resolveCredentials_evs cfg cid cs with hr | hr <;>
      simp [hr, isFetchEv, List.filter_append]
  refine ⟨hwrite, hread, hone, fun _ _ _ => rfl, rfl, ?_⟩
  intro cfg h1 h2 h3
  unfold twoTokenAcquisitions
  rw [List.filter_append, List.length_append]
  have := (hone cfg none none h1 h2 h3).1
  simp only [getCurrentAccessToken]
  omega

/-- C10 witness: with configured credentials and URL, one token acquisition
performs exactly one POST of the token endpoint. -/
theorem c10_witness :
    ((getAccessToken demoAuthCfg none none).1.filter isFetchEv).length = 1 ∧
      AuthEv.fetchPOST ("https://vm.example" ++ "/api/v1/token")
        ∈ (getAccessToken demoAuthCfg none none).1 :=
  c10_fresh_token.2.2.1 demoAuthCfg none none (by decide) (by decide) (by decide)

lemma handleResponse_error {α : Type} (r : HttpResp α) (h : r.ok = false) :
    ∃ m, handleResponse r = Except.error m := by
  unfold handleResponse
  rw [if_pos h]
  rcases r.errorJson with _ | e
  · exact ⟨_, rfl⟩
  · exact ⟨_, rfl⟩

lemma dispCount_append (a b : List REv) : dispCount (a ++ b) = dispCount a + dispCount b := by
  simp [dispCount, List.filter_append]

lemma processUnit_dispCount (c : UnitCtx) (env : DispEnv) (d u : ℕ) :
    dispCount (processUnit c env d u).evs = 1 := by
  unfold processUnit
  rcases hd : env.dispenseRes d with r | m
  · by_cases hs : r.success = true
    · rcases hu : env.updateRes u with _ | m2 <;> simp [hd, hs, hu, dispCount, isDispenseEv]
    · rcases hu : env.updateRes u with _ | m2 <;> simp [hd, hs, hu, dispCount, isDispenseEv]
  · simp [hd, dispCount, isDispenseEv]

lemma processUnits_dispCount (c : UnitCtx) (env : DispEnv) :
    ∀ (q : ℕ) (acc : LoopAcc),
      dispCount (processUnits c env acc q).evs = dispCount acc.evs + q := by
  intro q
  induction q with
  | zero => intro acc; simp [processUnits]
  | succ n ih =>
    intro acc
    simp only [processUnits]
    rw [ih]
    simp only [dispCount_append, processUnit_dispCount]
    omega

lemma processItem_dispCount (sid oid : String) (cart : List CartItem) (env : DispEnv)
    (acc : LoopAcc) (bi : BackendItem) :
    (∀ acc2, processItem sid oid cart env acc bi = .ok acc2 →
      dispCount acc2.evs ≤ dispCount acc.evs + bi.quantity) ∧
    (∀ ab, processItem sid oid cart env acc bi = .error ab →
      dispCount ab.evs ≤ dispCount acc.evs + bi.quantity) := by
  unfold processItem
  by_cases hid : ¬ strTruthy bi.id = true
  · rw [if_pos hid]
    rcases hu : env.updateRes acc.uCnt with _ | m
    · constructor
      · intro acc2 hx
        simp only [Except.ok.injEq] at hx
        rw [← hx]
        simp [dispCount_append, dispCount, isDispenseEv]
      · intro ab hx
        simp at hx
    · constructor
      · intro acc2 hx
        simp at hx
      · intro ab hx
        simp only [Except.error.injEq] at hx
        rw [← hx]
        simp [dispCount_append, dispCount, isDispenseEv]
  · rw [if_neg hid]
    dsimp only
    by_cases hg : ¬ (mselTruthy (mergeProduct bi (popFront acc.fm bi.spring_id (bi.id.getD "")).1
        ((cart.find? (fun ci => ci.product.id = bi.spring_id)).map (fun ci => ci.product))).sel = true ∧
        strTruthy (mergeProduct bi (popFront acc.fm bi.spring_id (bi.id.getD "")).1
          ((cart.find? (fun ci => ci.product.id = bi.spring_id)).map (fun ci => ci.product))).vmId = true ∧
        strTruthy (mergeProduct bi (popFront acc.fm bi.spring_id (bi.id.getD "")).1
          ((cart.find? (fun ci => ci.product.id = bi.spring_id)).map (fun ci => ci.product))).storeId = true)
    · rw [if_pos hg]
      rcases hu : env.updateRes acc.uCnt with _ | m
      · constructor
        · intro acc2 hx
          simp only [Except.ok.injEq] at hx
          rw [← hx]
          simp [dispCount_append, dispCount, isDispenseEv]
        · intro ab hx
          simp at hx
      · constructor
        · intro acc2 hx
          simp at hx
        · intro ab hx
          simp only [Except.error.injEq] at hx
          rw [← hx]
          simp [dispCount_append, dispCount, isDispenseEv]
    · rw [if_neg hg]
      constructor
      · intro acc2 hx
        simp only [Except.ok.injEq] at hx
        rw [← hx]
        rw [processUnits_dispCount]
      · intro ab hx
        simp at hx

lemma processItems_dispCount (sid oid : String) (cart : List CartItem) (env : DispEnv) :
    ∀ (bits : List BackendItem) (acc : LoopAcc),
      (∀ acc2, processItems sid oid cart env acc bits = .ok acc2 →
        dispCount acc2.evs ≤ dispCount acc.evs + sumQ bits) ∧
      (∀ ab, processItems sid oid cart env acc bits = .error ab →
        dispCount ab.evs ≤ dispCount acc.evs + sumQ bits) := by
  intro bits
  induction bits with
  | nil =>
    intro acc
    constructor
    · intro acc2 hx
      simp only [processItems, Except.ok.injEq] at hx
      rw [← hx]
      simp [sumQ]
    · intro ab hx
      simp [processItems] at hx
  | cons bi rest ih =>
    intro acc
    have hsum : sumQ (bi :: rest) = bi.quantity + sumQ rest := by simp [sumQ]
    constructor
    · intro acc2 hx
      simp only [processItems] at hx
      rcases hpi : processItem sid oid cart env acc bi with ab0 | accm
      · rw [hpi] at hx
        simp at hx
      · rw [hpi] at hx
        have h1 := (processItem_dispCount sid oid cart env acc bi).1 accm hpi
        have h2 := (ih accm).1 acc2 hx
        omega
    · intro ab hx
      simp only [processItems] at hx
      rcases hpi : processItem sid oid cart env acc bi with ab0 | accm
      · rw [hpi] at hx
        simp only [Except.error.injEq] at hx
        have h1 := (processItem_dispCount sid oid cart env acc bi).2 ab0 hpi
        rw [← hx]
        omega
      · rw [hpi] at hx
        have h1 := (processItem_dispCount sid oid cart env acc bi).1 accm hpi
        have h2 := (ih accm).2 ab hx
        omega

lemma handleCollect_dispCount (st : PageSt) (env : DispEnv) :
    dispCount (handleCollect st env).trace ≤ totalQtyOf env := by
  unfold handleCollect
  by_cases h1 : ¬ strTruthy st.storeId = true
  · rw [if_pos h1]
    simp [dispCount]
  · rw [if_neg h1]
    rcases st.currentOrder with _ | order
    · simp [dispCount]
    · dsimp only
      by_cases h2 : order.id = ""
      · rw [if_pos h2]
        simp [dispCount]
      · rw [if_neg h2]
        rcases hg0 : env.getOrderRes 0 with chk | m
        · dsimp only
          by_cases h3 : chk.payment_verified = false
          · rw [if_pos h3]
            simp [dispCount, isDispenseEv]
          · rw [if_neg h3]
            by_cases h4 : chk.order_status ≠ "paid"
            · rw [if_pos h4]
              simp [dispCount, isDispenseEv]
            · rw [if_neg h4]
              rcases hin : env.initiateRes with _ | m
              · dsimp only
                rcases hg1 : env.getOrderRes 1 with bo | m
                · dsimp only
                  by_cases h5 : (bo.items.getD []).isEmpty = true
                  · rw [if_pos h5]
                    simp [dispCount, isDispenseEv]
                  · rw [if_neg h5]
                    have htq : totalQtyOf env = sumQ (bo.items.getD []) := by
                      simp [totalQtyOf, hg1]
                    rcases hpi : processItems (st.storeId.getD "") order.id st.cartItems env
                        ⟨[], buildFrontMap order.items, [], [], [], 0, 0, 0⟩
                        (bo.items.getD []) with ab | acc
                    · have hle := (processItems_dispCount (st.storeId.getD "") order.id
                        st.cartItems env (bo.items.getD [])
                        ⟨[], buildFrontMap order.items, [], [], [], 0, 0, 0⟩).2 ab hpi
                      simp only [dispCount, List.filter, isDispenseEv] at hle ⊢
                      simp only [htq]
                      simp [dispCount, isDispenseEv, List.filter_append] at hle ⊢
                      omega
                    · have hle := (processItems_dispCount (st.storeId.getD "") order.id
                        st.cartItems env (bo.items.getD [])
                        ⟨[], buildFrontMap order.items, [], [], [], 0, 0, 0⟩).1 acc hpi
                      rcases hcm : env.completeRes with cd | m
                      · dsimp only
                        rcases hcr : env.createRefundRes with rd | m2 <;>
                        · by_cases h6 : acc.frs.isEmpty = true <;>
                            simp_all [dispCount, isDispenseEv, List.filter_append, htq]
                      · simp only [htq]
                        simp [dispCount, isDispenseEv, List.filter_append] at hle ⊢
                        omega
                · simp [dispCount, isDispenseEv]
              · simp [dispCount, isDispenseEv]
        · simp [dispCount, isDispenseEv]

/-- C8.  Nothing is retried: every REST wrapper of the vmService module
performs exactly one fetch of its endpoint per invocation and throws on a
non-ok response instead of re-issuing the request; and a `handleCollect` run
issues at most one dispense call per unit (a failed unit is recorded, never
re-attempted). -/
theorem c8_no_retry :
    (∀ (b s : String) (server : ℕ → HttpResp (List Spring)),
      (getSpringsByStoreId b s server).fetched.length = 1 ∧
      ((server 0).ok = false → ∃ m, (getSpringsByStoreId b s server).result = .error m)) ∧
    (∀ (b s v : String) (server : ℕ → HttpResp ConnectionStatusResponse),
      (getConnectionStatus b s v server).fetched.length = 1 ∧
      ((server 0).ok = false → ∃ m, (getConnectionStatus b s v server).result = .error m)) ∧
    (∀ (b s v : String) (server : ℕ → HttpResp DispenseResponse),
      (dispenseProduct b s v server).fetched.length = 1 ∧
      ((server 0).ok = false → ∃ m, (dispenseProduct b s v server).result = .error m)) ∧
    (∀ (b s v : String) (server : ℕ → HttpResp Bool),
      (requestSpringData b s v server).fetched.length = 1 ∧
      ((server 0).ok = false → ∃ m, (requestSpringData b s v server).result = .error m)) ∧
    (∀ (b : String) (server : ℕ → HttpResp BackendOrder),
      (createOrder b server).fetched.length = 1 ∧
      ((server 0).ok = false → ∃ m, (createOrder b server).result = .error m)) ∧
    (∀ (b o : String) (server : ℕ → HttpResp RazorpayOrderResponse),
      (createRazorpayOrder b o server).fetched.length = 1 ∧
      ((server 0).ok = false → ∃ m, (createRazorpayOrder b o server).result = .error m)) ∧
    (∀ (b : String) (server : ℕ → HttpResp BackendOrder),
      (verifyPayment b server).fetched.length = 1 ∧
      ((server 0).ok = false → ∃ m, (verifyPayment b server).result = .error m)) ∧
    (∀ (b o : String) (server : ℕ → HttpResp BackendOrder),
      (getOrder b o server).fetched.length = 1 ∧
      ((server 0).ok = false → ∃ m, (getOrder b o server).result = .error m)) ∧
    (∀ (b o : String) (server : ℕ → HttpResp Bool),
      (initiateDispense b o server).fetched.length = 1 ∧
      ((server 0).ok = false → ∃ m, (initiateDispense b o server).result = .error m)) ∧
    (∀ (b o i : String) (server : ℕ → HttpResp Bool),
      (updateDispenseStatus b o i server).fetched.length = 1 ∧
      ((server 0).ok = false → ∃ m, (updateDispenseStatus b o i server).result = .error m)) ∧
    (∀ (b o : String) (server : ℕ → HttpResp BackendOrder),
      (completeDispense b o server).fetched.length = 1 ∧
      ((server 0).ok = false → ∃ m, (completeDispense b o server).result = .error m)) ∧
    (∀ (b o : String) (server : ℕ → HttpResp Bool),
      (createRefund b o server).fetched.length = 1 ∧
      ((server 0).ok = false → ∃ m, (createRefund b o server).result = .error m)) ∧
    (∀ (b r : String) (server : ℕ → HttpResp Bool),
      (processRefund b r server).fetched.length = 1 ∧
      ((server 0).ok = false → ∃ m, (processRefund b r server).result = .error m)) ∧
    (∀ (st : PageSt) (env : DispEnv),
      dispCount (handleCollect st env).trace ≤ totalQtyOf env) := by
  refine ⟨?_, ?_, ?_, ?_, ?_, ?_, ?_, ?_, ?_, ?_, ?_, ?_, ?_, handleCollect_dispCount⟩
  · intro b s server
    constructor
    · unfold getSpringsByStoreId
      dsimp only
      split <;> rfl
    · intro h
      unfold getSpringsByStoreId
      dsimp only
      by_cases h4 : (server 0).status = 401
      · rw [if_pos h4]
        exact ⟨_, rfl⟩
      · rw [if_neg h4]
        exact handleResponse_error (server 0) h
  all_goals
    intros
    exact ⟨rfl, fun h => handleResponse_error _ h⟩

/-- C8 witness: a dispense wrapper call against a failing server fetches
once and throws. -/
theorem c8_witness :
    (dispenseProduct "https://vm.example" "s1" "vm1" (fun _ => demoFailResp)).fetched.length = 1 ∧
      ∃ m, (dispenseProduct "https://vm.example" "s1" "vm1"
        (fun _ => demoFailResp)).result = .error m :=
  ⟨(c8_no_retry.2.2.1 "https://vm.example" "s1" "vm1" (fun _ => demoFailResp)).1,
    (c8_no_retry.2.2.1 "https://vm.example" "s1" "vm1" (fun _ => demoFailResp)).2 rfl⟩

/-- C2.  An offline or erroring vending machine, a failed pre-payment
validation, or a validation reporting the VM disconnected blocks checkout:
`handlePay` never calls `createOrder` (nor any later payment step), and when
a payment method was selected it surfaces an error notice. -/
theorem c2_offline_blocks_checkout (method : Option String) (items : List CartItem)
    (sid : Option String) (vmStatus : String) (env : PayEnv)
    (h : vmStatus = "offline" ∨ vmStatus = "error" ∨
      ∃ v, env.validateRes = .ok v ∧ (v.valid = false ∨ v.vm_connected = false)) :
    PayEv.createOrderEv ∉ (handlePay method items sid vmStatus env).trace ∧
    PayEv.createRazorpayEv ∉ (handlePay method items sid vmStatus env).trace ∧
    PayEv.openCheckoutEv ∉ (handlePay method items sid vmStatus env).trace ∧
    (method ≠ none → ∃ t, Notice.errorN t ∈ (handlePay method items sid vmStatus env).notices) := by
  unfold handlePay
  rcases method with _ | pm
  · simp
  · dsimp only
    by_cases h1 : items.isEmpty = true
    · rw [if_pos h1]
      simp
    · rw [if_neg h1]
      by_cases h2 : orStr ((items.head?.map (fun it => it.product)).bind
          (fun p => p.storeId)) (orStr sid "") = ""
      · rw [if_pos h2]
        simp
      · rw [if_neg h2]
        by_cases h3 : orStr ((items.head?.map (fun it => it.product)).bind
            (fun p => p.vmId)) "" = ""
        · rw [if_pos h3]
          simp
        · rw [if_neg h3]
          by_cases h4 : vmStatus = "offline"
          · rw [if_pos h4]
            simp
          · rw [if_neg h4]
            by_cases h5 : vmStatus = "error"
            · rw [if_pos h5]
              simp
            · rw [if_neg h5]
              rcases h with hc | hc | ⟨v, hv, hvv⟩
              · exact absurd hc h4
              · exact absurd hc h5
              · rw [hv]
                dsimp only
                rcases hvv with hvv | hvv
                · rw [if_pos hvv]
                  simp
                · by_cases h6 : v.valid = false
                  · rw [if_pos h6]
                    simp
                  · rw [if_neg h6, if_pos hvv]
                    simp

/-- C2 witness: with the VM offline, a pay attempt with a selected method
creates no order and shows an error. -/
theorem c2_witness :
    PayEv.createOrderEv
        ∉ (handlePay (some "razorpay") [⟨demoProduct, 1⟩] (some "s1") "offline" demoPayEnv).trace ∧
      ∃ t, Notice.errorN t
        ∈ (handlePay (some "razorpay") [⟨demoProduct, 1⟩] (some "s1") "offline" demoPayEnv).notices :=
  have h := c2_offline_blocks_checkout (some "razorpay") [⟨demoProduct, 1⟩] (some "s1")
    "offline" demoPayEnv (Or.inl rfl)
  ⟨h.1, h.2.2.2 (by simp)⟩

/-- C3.  Dispensing never happens for an unpaid order: `initiateDispense` and
`dispenseProduct` appear in a run's trace only when the fresh `getOrder`
lookup returned `payment_verified = true` and `order_status = "paid"`; and
when that check fails (with the entry guards satisfied) the handler sets an
error, resets the dispensing state to `ready`, and issues no dispense call. -/
theorem c3_paid_before_dispense (st : PageSt) (env : DispEnv) :
    ((∃ e ∈ (handleCollect st env).trace, isDispCall e = true) →
      ∃ chk, env.getOrderRes 0 = CallRes.ok chk ∧ chk.payment_verified = true ∧
        chk.order_status = "paid") ∧
    (∀ chk, env.getOrderRes 0 = CallRes.ok chk →
      ¬ (chk.payment_verified = true ∧ chk.order_status = "paid") →
      strTruthy st.storeId = true → (∃ o, st.currentOrder = some o ∧ o.id ≠ "") →
      (handleCollect st env).error ≠ none ∧
      (handleCollect st env).isDispensing = some false ∧
      (handleCollect st env).phase = "ready" ∧
      ∀ e ∈ (handleCollect st env).trace, isDispCall e = false) := by
  unfold handleCollect
  by_cases h1 : ¬ strTruthy st.storeId = true
  · rw [if_pos h1]
    constructor
    · intro ⟨e, he, _⟩
      simp at he
    · intro chk _ _ hst _
      exact absurd hst (by simpa using h1)
  · rw [if_neg h1]
    rcases st.currentOrder with _ | order
    · constructor
      · intro ⟨e, he, _⟩
        simp at he
      · intro chk _ _ _ ⟨o, ho, _⟩
        simp at ho
    · dsimp only
      by_cases h2 : order.id = ""
      · rw [if_pos h2]
        constructor
        · intro ⟨e, he, _⟩
          simp at he
        · intro chk _ _ _ ⟨o, ho, hne⟩
          simp only [Option.some.injEq] at ho
          exact absurd (ho ▸ h2) hne
      · rw [if_neg h2]
        rcases hg0 : env.getOrderRes 0 with chk | m
        · dsimp only
          by_cases h3 : chk.payment_verified = false
          · rw [if_pos h3]
            constructor
            · intro ⟨e, he, hd⟩
              simp only [List.mem_singleton] at he
              rw [he] at hd
              simp [isDispCall] at hd
            · intro chk2 hg0b _ _ _
              refine ⟨by simp, by simp, by simp, ?_⟩
              intro e he
              simp only [List.mem_singleton] at he
              rw [he]
              rfl
          · rw [if_neg h3]
            by_cases h4 : chk.order_status ≠ "paid"
            · rw [if_pos h4]
              constructor
              · intro ⟨e, he, hd⟩
                simp only [List.mem_singleton] at he
                rw [he] at hd
                simp [isDispCall] at hd
              · intro chk2 hg0b _ _ _
                refine ⟨by simp, by simp, by simp, ?_⟩
                intro e he
                simp only [List.mem_singleton] at he
                rw [he]
                rfl
            · rw [if_neg h4]
              have hver : chk.payment_verified = true := by
                revert h3
                cases chk.payment_verified <;> simp
              have hpaid : chk.order_status = "paid" := by
                revert h4
                simp
              constructor
              · intro _
                exact ⟨chk, rfl, hver, hpaid⟩
              · intro chk2 hg0b hne _ _
                injection hg0b with hchk
                exact absurd ⟨hchk ▸ hver, hchk ▸ hpaid⟩ hne
        · constructor
          · intro ⟨e, he, hd⟩
            simp only [List.mem_singleton] at he
            rw [he] at hd
            simp [isDispCall] at hd
          · intro chk2 hg0b _ _ _
            simp at hg0b

/-- C3 witness: an unpaid order makes the handler error out, reset to
`ready`, and issue no dispense call. -/
theorem c3_witness :
    (handleCollect demoPageSt demoUnpaidEnv).error ≠ none ∧
      (handleCollect demoPageSt demoUnpaidEnv).phase = "ready" :=
  have h := (c3_paid_before_dispense demoPageSt demoUnpaidEnv).2 ⟨false, "pending", some []⟩
    rfl (by decide) (by decide) ⟨demoOrder, rfl, by decide⟩
  ⟨h.1, h.2.2.1⟩

lemma processUnit_evs_upd_ok (c : UnitCtx) (env : DispEnv) (d u : ℕ)
    (h : env.updateRes u = .ok ()) :
    (processUnit c env d u).evs = unitBlock c env d ∧ (processUnit c env d u).uAdv = 1 := by
  unfold processUnit unitBlock unitStatusOf
  rcases hd : env.dispenseRes d with r | m
  · by_cases hs : r.success = true
    · simp [hd, hs, h]
    · simp [hd, hs, h]
  · simp [hd]

lemma processUnits_spec_upd_ok (c : UnitCtx) (env : DispEnv)
    (h : ∀ k, env.updateRes k = .ok ()) :
    ∀ (q : ℕ) (acc : LoopAcc),
      (processUnits c env acc q).evs
          = acc.evs ++ (List.range q).flatMap (fun j => unitBlock c env (acc.dCnt + j)) ∧
        (processUnits c env acc q).dCnt = acc.dCnt + q := by
  intro q
  induction q with
  | zero => intro acc; simp [processUnits]
  | succ n ih =>
    intro acc
    simp only [processUnits]
    obtain ⟨hu1, hu2⟩ := processUnit_evs_upd_ok c env acc.dCnt acc.uCnt (h acc.uCnt)
    obtain ⟨ih1, ih2⟩ := ih { acc with
      evs := acc.evs ++ (processUnit c env acc.dCnt acc.uCnt).evs
      fps := acc.fps ++ (processUnit c env acc.dCnt acc.uCnt).fps
      frs := acc.frs ++ (processUnit c env acc.dCnt acc.uCnt).frs
      audits := acc.audits ++ [(processUnit c env acc.dCnt acc.uCnt).audit]
      dCnt := acc.dCnt + 1
      uCnt := acc.uCnt + (processUnit c env acc.dCnt acc.uCnt).uAdv
      succ := acc.succ + (processUnit c env acc.dCnt acc.uCnt).succInc }
    refine ⟨?_, by rw [ih2]; dsimp only; omega⟩
    rw [ih1]
    simp only [hu1, List.append_assoc]
    congr 1
    rw [List.range_succ_eq_map n]
    simp only [List.flatMap_cons, Nat.add_zero, List.flatMap_map]
    congr 1
    apply List.flatMap_congr
    intro j _
    have harith : acc.dCnt + 1 + j = acc.dCnt + (j + 1) := by omega
    simp [Function.comp, harith]

lemma mergeProduct_fitem_indep (bi : BackendItem) (f : Option FrontItem) (p : Product) :
    mergeProduct bi f (some p) = mergeProduct bi none (some p) := rfl

lemma processItem_spec_ok (sid oid : String) (cart : List CartItem) (env : DispEnv)
    (hupd : ∀ k, env.updateRes k = .ok ()) (acc : LoopAcc) (bi : BackendItem)
    (hid : strTruthy bi.id = true) (hg : itemGuard cart bi) :
    ∃ acc2, processItem sid oid cart env acc bi = .ok acc2 ∧
      acc2.evs = acc.evs ++ itemBlocks sid oid cart env acc.dCnt bi ∧
      acc2.dCnt = acc.dCnt + bi.quantity := by
  unfold processItem
  rw [if_neg (by simp [hid])]
  dsimp only
  rcases hcp : cart.find? (fun ci => ci.product.id = bi.spring_id) with _ | ci
  · exfalso
    unfold itemGuard at hg
    rw [hcp] at hg
    rcases hpf : (popFront acc.fm bi.spring_id (bi.id.getD "")).1 with _ | f <;>
      simp [mergeProduct, strTruthy] at hg
  · have hmp : mergeProduct bi (popFront acc.fm bi.spring_id (bi.id.getD "")).1
        ((cart.find? (fun ci => ci.product.id = bi.spring_id)).map (fun ci => ci.product))
        = mergeProduct bi none (some ci.product) := by
      rw [hcp]
      exact mergeProduct_fitem_indep bi _ ci.product
    unfold itemGuard at hg
    rw [hcp] at hg
    simp only [Option.map_some'] at hg hmp
    rw [hmp]
    rw [if_neg (by simp [hg.1, hg.2.1, hg.2.2])]
    obtain ⟨h1, h2⟩ := processUnits_spec_upd_ok (unitCtxOf sid oid bi
      (mergeProduct bi none (some ci.product))) env hupd bi.quantity
      { acc with fm := (popFront acc.fm bi.spring_id (bi.id.getD "")).2 }
    refine ⟨_, rfl, ?_, ?_⟩
    · rw [h1]
      dsimp only
      unfold itemBlocks unitCtxFor
      rw [hcp]
      simp only [Option.map_some']
    · rw [h2]

lemma processItems_spec_ok (sid oid : String) (cart : List CartItem) (env : DispEnv)
    (hupd : ∀ k, env.updateRes k = .ok ()) :
    ∀ (bits : List BackendItem) (acc : LoopAcc),
      (∀ bi ∈ bits, strTruthy bi.id = true ∧ itemGuard cart bi) →
      ∃ acc2, processItems sid oid cart env acc bits = .ok acc2 ∧
        acc2.evs = acc.evs ++ allBlocks sid oid cart env bits acc.dCnt ∧
        acc2.dCnt = acc.dCnt + sumQ bits := by
  intro bits
  induction bits with
  | nil =>
    intro acc _
    exact ⟨acc, rfl, by simp [allBlocks, sumQ], by simp [sumQ]⟩
  | cons bi rest ih =>
    intro acc hall
    obtain ⟨h1, h2⟩ := hall bi (List.mem_cons_self bi rest)
    obtain ⟨acc1, hp1, he1, hd1⟩ := processItem_spec_ok sid oid cart env hupd acc bi h1 h2
    obtain ⟨acc2, hp2, he2, hd2⟩ := ih acc1 (fun b hb => hall b (List.mem_cons_of_mem bi hb))
    refine ⟨acc2, ?_, ?_, ?_⟩
    · simp only [processItems, hp1]
      exact hp2
    · rw [he2, he1, hd1]
      simp [allBlocks, List.append_assoc]
    · rw [hd2, hd1]
      simp only [sumQ, List.map_cons, List.sum_cons]
      omega

lemma unitBlock_mem (c : UnitCtx) (env : DispEnv) (k : ℕ) :
    ∀ e ∈ unitBlock c env k,
      isInitiateEv e = false ∧ isCompleteEv e = false ∧ isRefundCall e = false := by
  intro e he
  simp only [unitBlock, List.mem_cons, List.mem_singleton, List.not_mem_nil, or_false] at he
  rcases he with he | he <;> subst he <;> exact ⟨rfl, rfl, rfl⟩

lemma allBlocks_mem (sid oid : String) (cart : List CartItem) (env : DispEnv) :
    ∀ (bits : List BackendItem) (dStart : ℕ) (e : REv),
      e ∈ allBlocks sid oid cart env bits dStart →
      isInitiateEv e = false ∧ isCompleteEv e = false ∧ isRefundCall e = false := by
  intro bits
  induction bits with
  | nil => intro dStart e he; simp [allBlocks] at he
  | cons bi rest ih =>
    intro dStart e he
    simp only [allBlocks, List.mem_append] at he
    rcases he with he | he
    · simp only [itemBlocks, List.mem_flatMap] at he
      obtain ⟨j, _, hj⟩ := he
      exact unitBlock_mem _ env _ e hj
    · exact ih _ e he

lemma filter_false_nil {l : List REv} {p : REv → Bool} (h : ∀ e ∈ l, p e = false) :
    l.filter p = [] := by
  induction l with
  | nil => rfl
  | cons a l ih =>
    simp only [List.filter_cons, h a (List.mem_cons_self a l)]
    exact ih (fun e he => h e (List.mem_cons_of_mem a he))

lemma refundCall_not_initiate (e : REv) (h : isRefundCall e = true) :
    isInitiateEv e = false ∧ isCompleteEv e = false := by
  cases e <;> simp_all [isRefundCall, isInitiateEv, isCompleteEv]

/-- C4.  The dispensing orchestration is the fixed sequence the spec
describes: with the guards satisfied, the payment check passing, the item
fetch returning well-formed items, and the status updates succeeding, the
run's trace is exactly the payment-check `getOrder`, one `initiateDispense`,
the item-fetch `getOrder`, then — iterating the backend items in order —
quantity-many dispense calls per item, each followed by one status update
reporting success or failure, then exactly one `completeDispense`, followed
only by refund-step calls. -/
theorem c4_call_sequence (st : PageSt) (env : DispEnv) (sid : String) (order : AppOrder)
    (chk bo : BackendOrder) (bitems : List BackendItem)
    (h1 : st.storeId = some sid) (h2 : sid ≠ "")
    (h3 : st.currentOrder = some order) (h4 : order.id ≠ "")
    (h5 : env.getOrderRes 0 = .ok chk) (h6 : chk.payment_verified = true)
    (h7 : chk.order_status = "paid")
    (h8 : env.initiateRes = .ok ())
    (h9 : env.getOrderRes 1 = .ok bo) (h10 : bo.items = some bitems) (h11 : bitems ≠ [])
    (h12 : ∀ k, env.updateRes k = .ok ())
    (h13 : ∀ bi ∈ bitems, strTruthy bi.id = true ∧ itemGuard st.cartItems bi) :
    ∃ tail,
      (handleCollect st env).trace
        = [REv.getOrderEv order.id, REv.initiateEv order.id, REv.getOrderEv order.id]
          ++ allBlocks sid order.id st.cartItems env bitems 0
          ++ [REv.completeEv order.id] ++ tail ∧
      (∀ e ∈ tail, isRefundCall e = true) ∧
      ((handleCollect st env).trace.filter isInitiateEv).length = 1 ∧
      ((handleCollect st env).trace.filter isCompleteEv).length = 1 := by
  obtain ⟨acc2, hp, he, hd⟩ := processItems_spec_ok sid order.id st.cartItems env h12 bitems
    ⟨[], buildFrontMap order.items, [], [], [], 0, 0, 0⟩ h13
  have htr : ∃ tail, (handleCollect st env).trace
      = [REv.getOrderEv order.id, REv.initiateEv order.id, REv.getOrderEv order.id]
        ++ allBlocks sid order.id st.cartItems env bitems 0
        ++ [REv.completeEv order.id] ++ tail ∧
      (∀ e ∈ tail, isRefundCall e = true) := by
    unfold handleCollect
    rw [h1]
    rw [if_neg (by simp [strTruthy, h2])]
    rw [h3]
    dsimp only
    rw [if_neg h4, h5]
    dsimp only
    rw [if_neg (by simp [h6]), if_neg (by simp [h7]), h8]
    dsimp only
    rw [h9]
    dsimp only
    rw [h10]
    simp only [Option.getD_some]
    rw [if_neg (by simpa [List.isEmpty_iff] using h11)]
    rw [hp]
    dsimp only
    rcases hcm : env.completeRes with cd | m
    · dsimp only
      by_cases hfr : acc2.frs.isEmpty = true
      · rw [if_pos hfr]
        refine ⟨[], ?_, by simp⟩
        rw [he]
        simp
      · rw [if_neg hfr]
        rcases hcr : env.createRefundRes with rd | m2
        · dsimp only
          refine ⟨[REv.createRefundEv order.id
              ⟨(acc2.frs.map (fun i => i.total_price)).sum, "Product dispense failed",
                "failed_dispense", acc2.frs⟩, REv.processRefundEv rd.id], ?_, ?_⟩
          · rw [he]
            simp
          · intro e hee
            simp only [List.mem_cons, List.mem_singleton, List.not_mem_nil, or_false] at hee
            rcases hee with hee | hee <;> subst hee <;> rfl
        · dsimp only
          refine ⟨[REv.createRefundEv order.id
              ⟨(acc2.frs.map (fun i => i.total_price)).sum, "Product dispense failed",
                "failed_dispense", acc2.frs⟩], ?_, ?_⟩
          · rw [he]
            simp
          · intro e hee
            simp only [List.mem_singleton] at hee
            subst hee
            rfl
    · refine ⟨[], ?_, by simp⟩
      rw [he]
      simp
  obtain ⟨tail, htrace, htail⟩ := htr
  refine ⟨tail, htrace, htail, ?_, ?_⟩
  · rw [htrace]
    simp only [List.filter_append, List.length_append]
    rw [filter_false_nil (fun e hee => (allBlocks_mem sid order.id st.cartItems env bitems 0 e hee).1)]
    rw [filter_false_nil (fun e hee => (refundCall_not_initiate e (htail e hee)).1)]
    simp [isInitiateEv, List.filter_cons]
  · rw [htrace]
    simp only [List.filter_append, List.length_append]
    rw [filter_false_nil (fun e hee =>
      (allBlocks_mem sid order.id st.cartItems env bitems 0 e hee).2.1)]
    rw [filter_false_nil (fun e hee => (refundCall_not_initiate e (htail e hee)).2)]
    simp [isCompleteEv, List.filter_cons]

/-- C4 witness: a concrete all-good run calls `initiateDispense` and
`completeDispense` exactly once. -/
theorem c4_witness :
    ((handleCollect demoPageSt demoPaidEnv).trace.filter isInitiateEv).length = 1 ∧
      ((handleCollect demoPageSt demoPaidEnv).trace.filter isCompleteEv).length = 1 :=
  match c4_call_sequence demoPageSt demoPaidEnv "s1" demoOrder demoPaidOrder demoPaidOrder
    [demoBItem] rfl (by decide) rfl (by decide) rfl rfl rfl rfl rfl rfl (by decide)
    (fun _ => rfl)
    (by
      intro bi hbi
      simp only [List.mem_singleton] at hbi
      subst hbi
      refine ⟨by decide, ?_, ?_, ?_⟩ <;> decide) with
  | ⟨_, _, _, hi, hc⟩ => ⟨hi, hc⟩

lemma refundSum_append (a b : List RefundItemReq) :
    refundSum (a ++ b) = refundSum a + refundSum b := by
  simp [refundSum]

lemma auditCount_append_single (a : List UnitAudit) (u : UnitAudit) :
    auditCount (a ++ [u]) = auditCount a + unitRefundCount u := by
  simp [auditCount]

lemma auditSum_append_single (a : List UnitAudit) (u : UnitAudit) :
    auditSum (a ++ [u]) = auditSum a + (unitRefundCount u : ℚ) * u.price := by
  simp [auditSum]

lemma createRefundCount_eq_zero (l : List REv) (h : ∀ e ∈ l, isRefundCall e = false) :
    createRefundCount l = 0 := by
  unfold createRefundCount
  rw [filter_false_nil]
  · rfl
  · intro e he
    have h2 := h e he
    cases e <;> simp_all [isRefundCall]

lemma createRefundCount_append (a b : List REv) :
    createRefundCount (a ++ b) = createRefundCount a + createRefundCount b := by
  simp [createRefundCount, List.filter_append]

lemma processUnit_refund_spec (c : UnitCtx) (env : DispEnv) (d u : ℕ) :
    (∀ e ∈ (processUnit c env d u).evs, isRefundCall e = false) ∧
    (processUnit c env d u).frs.length = unitRefundCount (processUnit c env d u).audit ∧
    refundSum (processUnit c env d u).frs
      = (unitRefundCount (processUnit c env d u).audit : ℚ) *
          (processUnit c env d u).audit.price := by
  unfold processUnit
  rcases hd : env.dispenseRes d with r | m
  · by_cases hs : r.success = true
    · rcases hu : env.updateRes u with _ | m2
      · simp only [hd, hs, hu, ite_true]
        refine ⟨?_, rfl, by simp [refundSum, unitRefundCount]⟩
        intro e he
        simp only [List.mem_cons, List.mem_singleton, List.not_mem_nil, or_false] at he
        rcases he with he | he <;> subst he <;> rfl
      · simp only [hd, hs, hu, ite_true]
        refine ⟨?_, rfl, by simp [refundSum, unitRefundItem, unitRefundCount]⟩
        intro e he
        simp only [List.mem_cons, List.mem_singleton, List.not_mem_nil, or_false] at he
        rcases he with he | he | he <;> subst he <;> rfl
    · rcases hu : env.updateRes u with _ | m2
      · simp only [hd, hs, hu, ite_false, Bool.false_eq_true, if_false]
        refine ⟨?_, rfl, by simp [refundSum, unitRefundItem, unitRefundCount]⟩
        intro e he
        simp only [List.mem_cons, List.mem_singleton, List.not_mem_nil, or_false] at he
        rcases he with he | he <;> subst he <;> rfl
      · simp only [hd, hs, hu, ite_false, Bool.false_eq_true, if_false]
        refine ⟨?_, rfl, ?_⟩
        · intro e he
          simp only [List.mem_cons, List.mem_singleton, List.not_mem_nil, or_false] at he
          rcases he with he | he | he <;> subst he <;> rfl
        · simp only [refundSum, unitRefundItem, unitRefundCount, List.map_cons, List.map_nil,
            List.sum_cons, List.sum_nil]
          push_cast
          ring
  · simp only [hd]
    refine ⟨?_, rfl, by simp [refundSum, unitRefundItem, unitRefundCount]⟩
    intro e he
    simp only [List.mem_cons, List.mem_singleton, List.not_mem_nil, or_false] at he
    rcases he with he | he <;> subst he <;> rfl

lemma processUnits_inv (c : UnitCtx) (env : DispEnv) :
    ∀ (q : ℕ) (acc : LoopAcc), LoopInv acc → LoopInv (processUnits c env acc q) := by
  intro q
  induction q with
  | zero => intro acc h; exact h
  | succ n ih =>
    intro acc h
    simp only [processUnits]
    apply ih
    obtain ⟨hu1, hu2, hu3⟩ := processUnit_refund_spec c env acc.dCnt acc.uCnt
    refine ⟨?_, ?_, ?_⟩
    · intro e he
      simp only [List.mem_append] at he
      rcases he with he | he
      · exact h.1 e he
      · exact hu1 e he
    · simp only [List.length_append, auditCount_append_single, h.2.1, hu2]
    · simp only [refundSum_append, auditSum_append_single, h.2.2, hu3]

lemma processItem_inv (sid oid : String) (cart : List CartItem) (env : DispEnv)
    (acc : LoopAcc) (bi : BackendItem) (h : LoopInv acc) :
    (∀ acc2, processItem sid oid cart env acc bi = .ok acc2 → LoopInv acc2) ∧
    (∀ ab, processItem sid oid cart env acc bi = .error ab →
      ∀ e ∈ ab.evs, isRefundCall e = false) := by
  have hstep : ∀ (ev : REv), isRefundCall ev = false →
      ∀ e ∈ acc.evs ++ [ev], isRefundCall e = false := by
    intro ev hev e he
    simp only [List.mem_append, List.mem_singleton] at he
    rcases he with he | he
    · exact h.1 e he
    · exact he ▸ hev
  unfold processItem
  by_cases hid : ¬ strTruthy bi.id = true
  · rw [if_pos hid]
    rcases hu : env.updateRes acc.uCnt with _ | m
    · constructor
      · intro acc2 hx
        simp only [Except.ok.injEq] at hx
        rw [← hx]
        exact ⟨hstep _ rfl, h.2.1, h.2.2⟩
      · intro ab hx
        simp at hx
    · constructor
      · intro acc2 hx
        simp at hx
      · intro ab hx
        simp only [Except.error.injEq] at hx
        rw [← hx]
        exact hstep _ rfl
  · rw [if_neg hid]
    dsimp only
    by_cases hg : ¬ (mselTruthy (mergeProduct bi (popFront acc.fm bi.spring_id (bi.id.getD "")).1
        ((cart.find? (fun ci => ci.product.id = bi.spring_id)).map (fun ci => ci.product))).sel = true ∧
        strTruthy (mergeProduct bi (popFront acc.fm bi.spring_id (bi.id.getD "")).1
          ((cart.find? (fun ci => ci.product.id = bi.spring_id)).map (fun ci => ci.product))).vmId = true ∧
        strTruthy (mergeProduct bi (popFront acc.fm bi.spring_id (bi.id.getD "")).1
          ((cart.find? (fun ci => ci.product.id = bi.spring_id)).map (fun ci => ci.product))).storeId = true)
    · rw [if_pos hg]
      rcases hu : env.updateRes acc.uCnt with _ | m
      · constructor
        · intro acc2 hx
          simp only [Except.ok.injEq] at hx
          rw [← hx]
          exact ⟨hstep _ rfl, h.2.1, h.2.2⟩
        · intro ab hx
          simp at hx
      · constructor
        · intro acc2 hx
          simp at hx
        · intro ab hx
          simp only [Except.error.injEq] at hx
          rw [← hx]
          exact hstep _ rfl
    · rw [if_neg hg]
      constructor
      · intro acc2 hx
        simp only [Except.ok.injEq] at hx
        rw [← hx]
        exact processUnits_inv _ env bi.quantity _ ⟨h.1, h.2.1, h.2.2⟩
      · intro ab hx
        simp at hx

lemma processItems_inv (sid oid : String) (cart : List CartItem) (env : DispEnv) :
    ∀ (bits : List BackendItem) (acc : LoopAcc), LoopInv acc →
      (∀ acc2, processItems sid oid cart env acc bits = .ok acc2 → LoopInv acc2) ∧
      (∀ ab, processItems sid oid cart env acc bits = .error ab →
        ∀ e ∈ ab.evs, isRefundCall e = false) := by
  intro bits
  induction bits with
  | nil =>
    intro acc h
    constructor
    · intro acc2 hx
      simp only [processItems, Except.ok.injEq] at hx
      exact hx ▸ h
    · intro ab hx
      simp [processItems] at hx
  | cons bi rest ih =>
    intro acc h
    constructor
    · intro acc2 hx
      simp only [processItems] at hx
      rcases hpi : processItem sid oid cart env acc bi with ab0 | accm
      · rw [hpi] at hx
        simp at hx
      · rw [hpi] at hx
        have hm := (processItem_inv sid oid cart env acc bi h).1 accm hpi
        exact (ih accm hm).1 acc2 hx
    · intro ab hx
      simp only [processItems] at hx
      rcases hpi : processItem sid oid cart env acc bi with ab0 | accm
      · rw [hpi] at hx
        simp only [Except.error.injEq] at hx
        exact hx ▸ (processItem_inv sid oid cart env acc bi h).2 ab0 hpi
      · rw [hpi] at hx
        have hm := (processItem_inv sid oid cart env acc bi h).1 accm hpi
        exact (ih accm hm).2 ab hx

lemma c1_refundFree (tr : List REv) (audits : List UnitAudit)
    (h : ∀ e ∈ tr, isRefundCall e = false) :
    createRefundCount tr ≤ 1 ∧
    (∀ (oid : String) (req : RefundReq), REv.createRefundEv oid req ∈ tr →
      req.refund_type = "failed_dispense" ∧ req.refund_reason = "Product dispense failed" ∧
      req.refund_amount = auditSum audits ∧ 0 < auditCount audits) ∧
    (auditCount audits = 0 → createRefundCount tr = 0) ∧
    (∃ pre post, tr = pre ++ post ∧ (∀ e ∈ pre, isRefundCall e = false) ∧
      (∀ e ∈ post, isRefundCall e = true)) := by
  have hc := createRefundCount_eq_zero tr h
  refine ⟨by omega, ?_, fun _ => hc, ⟨tr, [], by simp, h, by simp⟩⟩
  intro oid req hmem
  have h2 := h _ hmem
  simp [isRefundCall] at h2

lemma noRefund_append {A B : List REv} (ha : ∀ e ∈ A, isRefundCall e = false)
    (hb : ∀ e ∈ B, isRefundCall e = false) : ∀ e ∈ A ++ B, isRefundCall e = false := by
  intro e he
  rcases List.mem_append.mp he with hm | hm
  · exact ha e hm
  · exact hb e hm

lemma noRefund_single {ev : REv} (h : isRefundCall ev = false) :
    ∀ e ∈ [ev], isRefundCall e = false := by
  intro e he
  simp only [List.mem_singleton] at he
  exact he ▸ h

/-- Refund accounting over a `handleCollect` run: at most one refund, its
payload, the no-failure case, and the refund-calls-last trace split. -/
lemma handleCollect_refund_acct (st : PageSt) (env : DispEnv) :
    createRefundCount (handleCollect st env).trace ≤ 1 ∧
    (∀ (oid : String) (req : RefundReq),
      REv.createRefundEv oid req ∈ (handleCollect st env).trace →
      req.refund_type = "failed_dispense" ∧ req.refund_reason = "Product dispense failed" ∧
      req.refund_amount = auditSum (handleCollect st env).audits ∧
      0 < auditCount (handleCollect st env).audits) ∧
    (auditCount (handleCollect st env).audits = 0 →
      createRefundCount (handleCollect st env).trace = 0) ∧
    (∃ pre post, (handleCollect st env).trace = pre ++ post ∧
      (∀ e ∈ pre, isRefundCall e = false) ∧ (∀ e ∈ post, isRefundCall e = true)) := by
  unfold handleCollect
  by_cases h1 : ¬ strTruthy st.storeId = true
  · rw [if_pos h1]
    exact c1_refundFree [] [] (by intro e he; simp at he)
  · rw [if_neg h1]
    rcases st.currentOrder with _ | order
    · exact c1_refundFree [] [] (by intro e he; simp at he)
    · dsimp only
      by_cases h2 : order.id = ""
      · rw [if_pos h2]
        exact c1_refundFree [] [] (by intro e he; simp at he)
      · rw [if_neg h2]
        rcases hg0 : env.getOrderRes 0 with chk | m
        · dsimp only
          by_cases h3 : chk.payment_verified = false
          · rw [if_pos h3]
            exact c1_refundFree _ [] (noRefund_single rfl)
          · rw [if_neg h3]
            by_cases h4 : chk.order_status ≠ "paid"
            · rw [if_pos h4]
              exact c1_refundFree _ [] (noRefund_single rfl)
            · rw [if_neg h4]
              rcases hin : env.initiateRes with _ | m
              · dsimp only
                rcases hg1 : env.getOrderRes 1 with bo | m
                · dsimp only
                  by_cases h5 : (bo.items.getD []).isEmpty = true
                  · rw [if_pos h5]
                    exact c1_refundFree _ []
                      (noRefund_append (noRefund_append (noRefund_single rfl)
                        (noRefund_single rfl)) (noRefund_single rfl))
                  · rw [if_neg h5]
                    have hinv0 : LoopInv ⟨[], buildFrontMap order.items, [], [], [], 0, 0, 0⟩ := by
                      refine ⟨by intro e he; simp at he, ?_, ?_⟩
                      · simp [auditCount]
                      · simp [refundSum, auditSum]
                    rcases hpi : processItems (st.storeId.getD "") order.id st.cartItems env
                        ⟨[], buildFrontMap order.items, [], [], [], 0, 0, 0⟩
                        (bo.items.getD []) with ab | acc
                    · have hab := (processItems_inv (st.storeId.getD "") order.id st.cartItems
                        env (bo.items.getD []) _ hinv0).2 ab hpi
                      exact c1_refundFree _ ab.audits
                        (noRefund_append (noRefund_append (noRefund_append
                          (noRefund_single rfl) (noRefund_single rfl))
                          (noRefund_single rfl)) hab)
                    · have hacc := (processItems_inv (st.storeId.getD "") order.id st.cartItems
                        env (bo.items.getD []) _ hinv0).1 acc hpi
                      have hevC : ∀ e ∈ ((([REv.getOrderEv order.id]
                          ++ [REv.initiateEv order.id]) ++ [REv.getOrderEv order.id])
                          ++ acc.evs) ++ [REv.completeEv order.id],
                          isRefundCall e = false :=
                        noRefund_append (noRefund_append (noRefund_append (noRefund_append
                          (noRefund_single rfl) (noRefund_single rfl))
                          (noRefund_single rfl)) hacc.1)
                          (noRefund_single rfl)
                      rcases hcm : env.completeRes with cd | m
                      · dsimp only
                        by_cases hfr : acc.frs.isEmpty = true
                        · rw [if_pos hfr]
                          exact c1_refundFree _ acc.audits
                            (noRefund_append hevC (by intro e he; simp at he))
                        · rw [if_neg hfr]
                          have hlen : 0 < acc.frs.length := by
                            rcases hfe : acc.frs with _ | ⟨f, fs⟩
                            · rw [hfe] at hfr
                              simp at hfr
                            · simp [hfe]
                          have hpos : 0 < auditCount acc.audits := hacc.2.1 ▸ hlen
                          have hrefl : refundSum acc.frs = auditSum acc.audits := hacc.2.2
                          unfold refundSum at hrefl
                          have hcnt0 := createRefundCount_eq_zero _ hevC
                          rcases hcr : env.createRefundRes with rd | m2 <;> dsimp only
                          · refine ⟨?_, ?_, ?_, ?_⟩
                            · rw [createRefundCount_append, hcnt0]
                              simp [createRefundCount]
                            · intro oid req hmem
                              rcases List.mem_append.mp hmem with hm | hm
                              · exact absurd (hevC _ hm) (by simp [isRefundCall])
                              · simp only [List.mem_cons, List.mem_singleton,
                                  List.not_mem_nil, or_false] at hm
                                rcases hm with hm | hm
                                · injection hm with ho hreq
                                  subst hreq
                                  exact ⟨rfl, rfl, hrefl, hpos⟩
                                · simp at hm
                            · intro h0
                              rw [h0] at hpos
                              exact absurd hpos (by omega)
                            · refine ⟨_, _, rfl, hevC, ?_⟩
                              intro e he
                              simp only [List.mem_cons, List.mem_singleton,
                                List.not_mem_nil, or_false] at he
                              rcases he with he | he <;> subst he <;> rfl
                          · refine ⟨?_, ?_, ?_, ?_⟩
                            · rw [createRefundCount_append, hcnt0]
                              simp [createRefundCount]
                            · intro oid req hmem
                              rcases List.mem_append.mp hmem with hm | hm
                              · exact absurd (hevC _ hm) (by simp [isRefundCall])
                              · simp only [List.mem_singleton] at hm
                                injection hm with ho hreq
                                subst hreq
                                exact ⟨rfl, rfl, hrefl, hpos⟩
                            · intro h0
                              rw [h0] at hpos
                              exact absurd hpos (by omega)
                            · refine ⟨_, _, rfl, hevC, ?_⟩
                              intro e he
                              simp only [List.mem_singleton] at he
                              subst he
                              rfl
                      · exact c1_refundFree _ acc.audits hevC
                · exact c1_refundFree _ []
                    (noRefund_append (noRefund_append (noRefund_single rfl)
                      (noRefund_single rfl)) (noRefund_single rfl))
              · exact c1_refundFree _ []
                  (noRefund_append (noRefund_single rfl) (noRefund_single rfl))
        · exact c1_refundFree _ [] (noRefund_single rfl)

lemma noComplete_unit (c : UnitCtx) (env : DispEnv) (d u : ℕ) :
    ∀ e ∈ (processUnit c env d u).evs, isCompleteEv e = false := by
  unfold processUnit
  rcases hd : env.dispenseRes d with r | m
  · by_cases hs : r.success = true
    · rcases hu : env.updateRes u with _ | m2
      · simp only [hd, hs, hu, ite_true]
        intro e he
        simp only [List.mem_cons, List.mem_singleton, List.not_mem_nil, or_false] at he
        rcases he with he | he <;> subst he <;> rfl
      · simp only [hd, hs, hu, ite_true]
        intro e he
        simp only [List.mem_cons, List.mem_singleton, List.not_mem_nil, or_false] at he
        rcases he with he | he | he <;> subst he <;> rfl
    · rcases hu : env.updateRes u with _ | m2
      · simp only [hd, hs, hu, ite_false, Bool.false_eq_true, if_false]
        intro e he
        simp only [List.mem_cons, List.mem_singleton, List.not_mem_nil, or_false] at he
        rcases he with he | he <;> subst he <;> rfl
      · simp only [hd, hs, hu, ite_false, Bool.false_eq_true, if_false]
        intro e he
        simp only [List.mem_cons, List.mem_singleton, List.not_mem_nil, or_false] at he
        rcases he with he | he | he <;> subst he <;> rfl
  · simp only [hd]
    intro e he
    simp only [List.mem_cons, List.mem_singleton, List.not_mem_nil, or_false] at he
    rcases he with he | he <;> subst he <;> rfl

lemma noComplete_units (c : UnitCtx) (env : DispEnv) :
    ∀ (q : ℕ) (acc : LoopAcc), (∀ e ∈ acc.evs, isCompleteEv e = false) →
      ∀ e ∈ (processUnits c env acc q).evs, isCompleteEv e = false := by
  intro q
  induction q with
  | zero => intro acc h; exact h
  | succ n ih =>
    intro acc h
    simp only [processUnits]
    apply ih
    intro e he
    simp only [List.mem_append] at he
    rcases he with he | he
    · exact h e he
    · exact noComplete_unit c env acc.dCnt acc.uCnt e he

lemma noComplete_item (sid oid : String) (cart : List CartItem) (env : DispEnv)
    (acc : LoopAcc) (bi : BackendItem) (h : ∀ e ∈ acc.evs, isCompleteEv e = false) :
    (∀ acc2, processItem sid oid cart env acc bi = .ok acc2 →
      ∀ e ∈ acc2.evs, isCompleteEv e = false) ∧
    (∀ ab, processItem sid oid cart env acc bi = .error ab →
      ∀ e ∈ ab.evs, isCompleteEv e = false) := by
  have hstep : ∀ (ev : REv), isCompleteEv ev = false →
      ∀ e ∈ acc.evs ++ [ev], isCompleteEv e = false := by
    intro ev hev e he
    simp only [List.mem_append, List.mem_singleton] at he
    rcases he with he | he
    · exact h e he
    · exact he ▸ hev
  unfold processItem
  by_cases hid : ¬ strTruthy bi.id = true
  · rw [if_pos hid]
    rcases hu : env.updateRes acc.uCnt with _ | m
    · constructor
      · intro acc2 hx
        simp only [Except.ok.injEq] at hx
        rw [← hx]
        exact hstep _ rfl
      · intro ab hx
        simp at hx
    · constructor
      · intro acc2 hx
        simp at hx
      · intro ab hx
        simp only [Except.error.injEq] at hx
        rw [← hx]
        exact hstep _ rfl
  · rw [if_neg hid]
    dsimp only
    by_cases hg : ¬ (mselTruthy (mergeProduct bi (popFront acc.fm bi.spring_id (bi.id.getD "")).1
        ((cart.find? (fun ci => ci.product.id = bi.spring_id)).map (fun ci => ci.product))).sel = true ∧
        strTruthy (mergeProduct bi (popFront acc.fm bi.spring_id (bi.id.getD "")).1
          ((cart.find? (fun ci => ci.product.id = bi.spring_id)).map (fun ci => ci.product))).vmId = true ∧
        strTruthy (mergeProduct bi (popFront acc.fm bi.spring_id (bi.id.getD "")).1
          ((cart.find? (fun ci => ci.product.id = bi.spring_id)).map (fun ci => ci.product))).storeId = true)
    · rw [if_pos hg]
      rcases hu : env.updateRes acc.uCnt with _ | m
      · constructor
        · intro acc2 hx
          simp only [Except.ok.injEq] at hx
          rw [← hx]
          exact hstep _ rfl
        · intro ab hx
          simp at hx
      · constructor
        · intro acc2 hx
          simp at hx
        · intro ab hx
          simp only [Except.error.injEq] at hx
          rw [← hx]
          exact hstep _ rfl
    · rw [if_neg hg]
      constructor
      · intro acc2 hx
        simp only [Except.ok.injEq] at hx
        rw [← hx]
        exact noComplete_units _ env bi.quantity _ h
      · intro ab hx
        simp at hx

lemma noComplete_items (sid oid : String) (cart : List CartItem) (env : DispEnv) :
    ∀ (bits : List BackendItem) (acc : LoopAcc), (∀ e ∈ acc.evs, isCompleteEv e = false) →
      (∀ acc2, processItems sid oid cart env acc bits = .ok acc2 →
        ∀ e ∈ acc2.evs, isCompleteEv e = false) ∧
      (∀ ab, processItems sid oid cart env acc bits = .error ab →
        ∀ e ∈ ab.evs, isCompleteEv e = false) := by
  intro bits
  induction bits with
  | nil =>
    intro acc h
    constructor
    · intro acc2 hx
      simp only [processItems, Except.ok.injEq] at hx
      exact hx ▸ h
    · intro ab hx
      simp [processItems] at hx
  | cons bi rest ih =>
    intro acc h
    constructor
    · intro acc2 hx
      simp only [processItems] at hx
      rcases hpi : processItem sid oid cart env acc bi with ab0 | accm
      · rw [hpi] at hx
        simp at hx
      · rw [hpi] at hx
        have hm := (noComplete_item sid oid cart env acc bi h).1 accm hpi
        exact (ih accm hm).1 acc2 hx
    · intro ab hx
      simp only [processItems] at hx
      rcases hpi : processItem sid oid cart env acc bi with ab0 | accm
      · rw [hpi] at hx
        simp only [Except.error.injEq] at hx
        exact hx ▸ (noComplete_item sid oid cart env acc bi h).2 ab0 hpi
      · rw [hpi] at hx
        have hm := (noComplete_item sid oid cart env acc bi h).1 accm hpi
        exact (ih accm hm).2 ab hx

/-- The if-direction of the refund accounting: in a run that reached the
`completeDispense` call and in which that call succeeds, a recorded failure
entry forces exactly one `createRefund` call. -/
lemma handleCollect_refund_fires (st : PageSt) (env : DispEnv) :
    (∃ e ∈ (handleCollect st env).trace, isCompleteEv e = true) →
    ∀ cd, env.completeRes = CallRes.ok cd →
    0 < auditCount (handleCollect st env).audits →
    createRefundCount (handleCollect st env).trace = 1 := by
  unfold handleCollect
  by_cases h1 : ¬ strTruthy st.storeId = true
  · rw [if_pos h1]
    rintro ⟨e, he, hce⟩
    simp at he
  · rw [if_neg h1]
    rcases st.currentOrder with _ | order
    · rintro ⟨e, he, hce⟩
      simp at he
    · dsimp only
      by_cases h2 : order.id = ""
      · rw [if_pos h2]
        rintro ⟨e, he, hce⟩
        simp at he
      · rw [if_neg h2]
        rcases hg0 : env.getOrderRes 0 with chk | m
        · dsimp only
          by_cases h3 : chk.payment_verified = false
          · rw [if_pos h3]
            rintro ⟨e, he, hce⟩
            simp at he
            subst he
            simp [isCompleteEv] at hce
          · rw [if_neg h3]
            by_cases h4 : chk.order_status ≠ "paid"
            · rw [if_pos h4]
              rintro ⟨e, he, hce⟩
              simp at he
              subst he
              simp [isCompleteEv] at hce
            · rw [if_neg h4]
              rcases hin : env.initiateRes with _ | m
              · dsimp only
                rcases hg1 : env.getOrderRes 1 with bo | m
                · dsimp only
                  by_cases h5 : (bo.items.getD []).isEmpty = true
                  · rw [if_pos h5]
                    rintro ⟨e, he, hce⟩
                    simp at he
                    rcases he with he | he | he <;> subst he <;>
                      simp [isCompleteEv] at hce
                  · rw [if_neg h5]
                    have hinv0 : LoopInv ⟨[], buildFrontMap order.items, [], [], [], 0, 0, 0⟩ := by
                      refine ⟨by intro e he; simp at he, ?_, ?_⟩
                      · simp [auditCount]
                      · simp [refundSum, auditSum]
                    rcases hpi : processItems (st.storeId.getD "") order.id st.cartItems env
                        ⟨[], buildFrontMap order.items, [], [], [], 0, 0, 0⟩
                        (bo.items.getD []) with ab | acc
                    · dsimp only
                      rintro ⟨e, he, hce⟩
                      have hnc := (noComplete_items (st.storeId.getD "") order.id st.cartItems
                        env (bo.items.getD []) _ (by intro x hx; simp at hx)).2 ab hpi
                      simp at he
                      rcases he with he | he | he | he
                      · subst he; simp [isCompleteEv] at hce
                      · subst he; simp [isCompleteEv] at hce
                      · subst he; simp [isCompleteEv] at hce
                      · rw [hnc e he] at hce
                        exact Bool.noConfusion hce
                    · have hacc := (processItems_inv (st.storeId.getD "") order.id st.cartItems
                        env (bo.items.getD []) _ hinv0).1 acc hpi
                      have hevC : ∀ e ∈ ((([REv.getOrderEv order.id]
                          ++ [REv.initiateEv order.id]) ++ [REv.getOrderEv order.id])
                          ++ acc.evs) ++ [REv.completeEv order.id],
                          isRefundCall e = false :=
                        noRefund_append (noRefund_append (noRefund_append (noRefund_append
                          (noRefund_single rfl) (noRefund_single rfl))
                          (noRefund_single rfl)) hacc.1)
                          (noRefund_single rfl)
                      have hcnt0 := createRefundCount_eq_zero _ hevC
                      rcases hcm : env.completeRes with cd0 | m
                      · dsimp only
                        intro hex cd hok hpos
                        by_cases hfr : acc.frs.isEmpty = true
                        · exfalso
                          have hfe : acc.frs.length = 0 := by
                            rcases hfq : acc.frs with _ | ⟨f, fs⟩
                            · rfl
                            · rw [hfq] at hfr
                              simp at hfr
                          have h21 := hacc.2.1
                          omega
                        · rw [if_neg hfr]
                          rcases hcr : env.createRefundRes with rd | m2 <;> dsimp only
                          · rw [createRefundCount_append, hcnt0]
                            simp [createRefundCount]
                          · rw [createRefundCount_append, hcnt0]
                            simp [createRefundCount]
                      · dsimp only
                        intro hex cd hok hpos
                        exact CallRes.noConfusion hok
                · rintro ⟨e, he, hce⟩
                  simp at he
                  rcases he with he | he | he <;> subst he <;>
                    simp [isCompleteEv] at hce
              · rintro ⟨e, he, hce⟩
                simp at he
                rcases he with he | he <;> subst he <;>
                  simp [isCompleteEv] at hce
        · rintro ⟨e, he, hce⟩
          simp at he
          subst he
          simp [isCompleteEv] at hce

/-- C1 (amended).  At most one refund is created per run; a created refund
has type `failed_dispense`, reason `Product dispense failed`, and an amount
exactly accounted for by the unit audit — each attempted unit contributes
its effective unit price once per recorded failure entry (a dispense
returning `success=false` or throwing, or a status update throwing after the
dispense; a dispense failure whose follow-up status update throws is
counted twice); a refund is created only when at least one entry was
recorded, and when no entry was recorded `createRefund` is never called; all
refund-step calls come after every other call of the run; and conversely, in
a run that reached the `completeDispense` call with that call succeeding,
at least one recorded failure entry forces exactly one `createRefund`
call. -/
theorem c1_refund_accounting (st : PageSt) (env : DispEnv) :
    createRefundCount (handleCollect st env).trace ≤ 1 ∧
    (∀ (oid : String) (req : RefundReq),
      REv.createRefundEv oid req ∈ (handleCollect st env).trace →
      req.refund_type = "failed_dispense" ∧ req.refund_reason = "Product dispense failed" ∧
      req.refund_amount = auditSum (handleCollect st env).audits ∧
      0 < auditCount (handleCollect st env).audits) ∧
    (auditCount (handleCollect st env).audits = 0 →
      createRefundCount (handleCollect st env).trace = 0) ∧
    (∃ pre post, (handleCollect st env).trace = pre ++ post ∧
      (∀ e ∈ pre, isRefundCall e = false) ∧ (∀ e ∈ post, isRefundCall e = true)) ∧
    ((∃ e ∈ (handleCollect st env).trace, isCompleteEv e = true) →
      ∀ cd, env.completeRes = CallRes.ok cd →
      0 < auditCount (handleCollect st env).audits →
      createRefundCount (handleCollect st env).trace = 1) := by
  obtain ⟨ha, hb, hc, hd⟩ := handleCollect_refund_acct st env
  exact ⟨ha, hb, hc, hd, handleCollect_refund_fires st env⟩

/-- C1 counterexample.  A run in which every `dispenseProduct` call succeeds
(no dispense attempt fails) but the first status update throws still calls
`createRefund` — refuting "when no attempt fails, createRefund is never
called": the ghost audit shows every unit's dispense outcome is `dispOk`,
yet the trace contains one `createRefund` call (for the successful unit's
price). -/
theorem c1_counterexample :
    (∀ u ∈ (handleCollect demoPageSt demoUpdThrowEnv).audits,
        u.outcome = DispOutcome.dispOk) ∧
      createRefundCount (handleCollect demoPageSt demoUpdThrowEnv).trace = 1 := by
  decide

/-- C1 witness: the amended theorem applied to the concrete run in which a
failure entry is recorded and `completeDispense` succeeds — the if-direction
yields exactly one `createRefund` call. -/
theorem c1_witness :
    createRefundCount (handleCollect demoPageSt demoUpdThrowEnv).trace = 1 :=
  (c1_refund_accounting demoPageSt demoUpdThrowEnv).2.2.2.2 (by decide)
    ⟨true, "completed", some [demoBItem]⟩ rfl (by decide)
